import Mathlib

/-!
Verification of the IDR_stream CP/DP merge module (`idrstream/merge_CP_DP.py`).

The pandas code is shallowly embedded:

* a cell value (`Val`) is an integer, a string, a rational (for real-valued
  location columns before the `astype(int)` coercion), or a coordinate pair
  (the `Full_Location` tuples built by `zip`);
* a dataframe (`DF`) is an ordered list of column names together with a list
  of rows, where each row is an association list from column name to value
  (well-formed frames have every row labelled exactly by `cols`, in order);
* pandas operations used by the source (`astype(int)` on the two location
  columns, column rename, row filtering by a column value, column drop,
  `pd.merge(..., on=key)` inner join, `pd.concat`, `df.insert(0, ...)`) are
  translated operation by operation;
* Python exceptions become an `Except`/`Option` error value, and the two
  process-global side effects of `merge_CP_DP_batch_data` (the in-place
  `astype(int)` mutation of the caller's frames and the
  `pd.options.mode.chained_assignment` toggle) are returned explicitly:
  the function yields `(result, cp after call, dp after call, warn flag)`;
* `uuid.uuid4()` is modelled by an ambient supply `Nat → String` indexed by
  the position in the generated list; floating-point `math.hypot` comparisons
  are modelled by exact comparison of squared Euclidean distance, which
  orders identically over the integer coordinates produced by `astype(int)`.
-/

namespace IdrStream

/-- A single cell value of a dataframe. -/
inductive Val where
  | vInt : Int → Val
  | vStr : String → Val
  | vRat : Rat → Val
  | vLoc : Int → Int → Val
deriving DecidableEq

/-- A row: an ordered association list from column name to value
(the ordering mirrors the dataframe's column order). -/
abbrev Rec := List (String × Val)

/-- Column names carried by a row, in order. -/
def recNames (r : Rec) : List String := r.map Prod.fst

/-- Value of column `c` in row `r` (first matching label, like pandas
column selection on a frame whose labels are unique). -/
def rowGet (r : Rec) (c : String) : Val :=
  match r.find? (fun p => p.1 == c) with
  | some p => p.2
  | none => Val.vInt 0

/-- Overwrite the (first) entry labelled `c` with value `v`; if no entry is
labelled `c`, append a new entry at the end (pandas `df[c] = ...`). -/
def rowSet (r : Rec) (c : String) (v : Val) : Rec :=
  match r with
  | [] => [(c, v)]
  | (n, w) :: t => if n = c then (n, v) :: t else (n, w) :: rowSet t c v

/-- A dataframe: ordered column labels plus rows. -/
structure DF where
  cols : List String
  rows : List Rec
deriving DecidableEq

/-- Well-formed frame: every row is labelled exactly by `cols`, in order. -/
def DF.WF (df : DF) : Prop := ∀ r ∈ df.rows, recNames r = df.cols

instance (df : DF) : Decidable df.WF := by
  unfold DF.WF; infer_instance

/-- A column of a frame, as the list of its values (pandas `df[c]`). -/
def DF.getCol (df : DF) (c : String) : List Val :=
  df.rows.map (fun r => rowGet r c)

/-- Assign a full column (pandas `df[c] = values`): overwrites the column if
the label exists, otherwise appends it as the last column. -/
def DF.setCol (df : DF) (c : String) (vs : List Val) : DF :=
  ⟨if c ∈ df.cols then df.cols else df.cols ++ [c],
   List.zipWith (fun r v => rowSet r c v) df.rows vs⟩

/-- Rename every column label through `f` (pandas `df.rename(columns=...)`,
where `f` is the total function induced by the rename dictionary). -/
def DF.rename (df : DF) (f : String → String) : DF :=
  ⟨df.cols.map f, df.rows.map (fun r => r.map (fun p => (f p.1, p.2)))⟩

/-- Keep the rows whose column `c` holds the value `v`
(pandas `df.loc[df[c] == v]`). -/
def DF.filterEq (df : DF) (c : String) (v : Val) : DF :=
  ⟨df.cols, df.rows.filter (fun r => rowGet r c == v)⟩

/-- Drop every column whose label is in `cs` (pandas `df.drop(columns=cs)`;
all occurrences of a listed label are removed). -/
def DF.dropCols (df : DF) (cs : List String) : DF :=
  ⟨df.cols.filter (fun c => decide (c ∉ cs)),
   df.rows.map (fun r => r.filter (fun p => decide (p.1 ∉ cs)))⟩

/-- Errors of the merge pipeline, one constructor per Python exception site:
`keyErr` for column selection/merge on a missing label, `castErr` for a
failing `astype(int)`, `cardinalityErr` for the row-count `IndexError`,
`schemaErr` for the `Metadata_DNA` `IndexError`, `valueErr` for `min` of an
empty series, `emptyConcatErr` for `pd.concat([])`, and `insertErr` for
`df.insert` of an already existing column. -/
inductive MergeErr where
  | keyErr
  | castErr
  | cardinalityErr
  | schemaErr
  | valueErr
  | emptyConcatErr
  | insertErr
deriving DecidableEq

deriving instance DecidableEq for Except

/-- Map a fallible function over a list, failing on the first failure
(the eager Python iteration order). -/
def mapOpt (f : α → Option β) : List α → Option (List β)
  | [] => some []
  | a :: as => (f a).bind (fun b => (mapOpt f as).map (fun bs => b :: bs))

/-- Map an `Except`-valued function over a list, propagating the first error
(the eager Python iteration order). -/
def mapExc (f : α → Except MergeErr β) : List α → Except MergeErr (List β)
  | [] => .ok []
  | a :: as =>
    match f a with
    | .error e => .error e
    | .ok b =>
      match mapExc f as with
      | .error e => .error e
      | .ok bs => .ok (b :: bs)

/-- Truncation toward zero, as Python's `int()` / numpy's float-to-int cast. -/
def truncRat (q : Rat) : Int := if 0 ≤ q then ⌊q⌋ else ⌈q⌉

/-- Conversion of one cell by `astype(int)`: integers unchanged, rationals
truncated toward zero, numeric strings parsed, everything else an error. -/
def toIntVal : Val → Option Int
  | .vInt n => some n
  | .vRat q => some (truncRat q)
  | .vStr s => s.toInt?
  | .vLoc _ _ => none

/-- Conversion by `astype(int)` of the two location cells of one row. -/
def astypeRow (r : Rec) : Option Rec :=
  match toIntVal (rowGet r "Location_Center_X"),
        toIntVal (rowGet r "Location_Center_Y") with
  | some a, some b =>
    some (rowSet (rowSet r "Location_Center_X" (Val.vInt a))
            "Location_Center_Y" (Val.vInt b))
  | _, _ => none

/-- The coercion `df[["Location_Center_X", "Location_Center_Y"]] =
df[["Location_Center_X", "Location_Center_Y"]].astype(int)`:
fails on a missing label (`KeyError`) or an unconvertible value. -/
def astypeLoc (df : DF) : Except MergeErr DF :=
  if "Location_Center_X" ∈ df.cols ∧ "Location_Center_Y" ∈ df.cols then
    match mapOpt astypeRow df.rows with
    | some rs => .ok ⟨df.cols, rs⟩
    | none => .error .castErr
  else .error .keyErr

/-- Squared Euclidean distance between two integer centroids: the comparison
key of `full_loc_map` (`math.hypot` over exact reals orders identically). -/
def dist2 (a b : Int × Int) : Int := (a.1 - b.1) ^ 2 + (a.2 - b.2) ^ 2

/-- Python `min(..., key=...)` over the running best: replaces the best
candidate only on a strictly smaller key, so the first minimum wins. -/
def minByDist (dp_coord : Int × Int) : (Int × Int) → List (Int × Int) → (Int × Int)
  | best, [] => best
  | best, c :: cs =>
    minByDist dp_coord (if dist2 c dp_coord < dist2 best dp_coord then c else best) cs

/-- The function `full_loc_map(dp_coord, cp_image_data_locations)`: the element of
`cp_image_data_locations` closest to `dp_coord`; `none` models the
`ValueError` of `min` on an empty series. -/
def full_loc_map (dp_coord : Int × Int) (cp_image_data_locations : List (Int × Int)) :
    Option (Int × Int) :=
  match cp_image_data_locations with
  | [] => none
  | c :: cs => some (minByDist dp_coord c cs)

/-- Distinct values of a list in order of first appearance, skipping the
values already `seen`. -/
def dedupAux : List Val → List Val → List Val
  | [], _ => []
  | a :: as, seen =>
    if a ∈ seen then dedupAux as seen else a :: dedupAux as (a :: seen)

/-- Like `pd.Series.unique`: the distinct values of a column in order of first
appearance. -/
def dedupFirst (l : List Val) : List Val := dedupAux l []

/-- Read the two location columns of a frame as integer coordinate pairs,
as `zip(df["Location_Center_X"], df["Location_Center_Y"])` does after the
`astype(int)` coercion. -/
def DF.getLocs (df : DF) : Except MergeErr (List (Int × Int)) :=
  if "Location_Center_X" ∈ df.cols ∧ "Location_Center_Y" ∈ df.cols then
    match mapOpt (fun r =>
      match rowGet r "Location_Center_X", rowGet r "Location_Center_Y" with
      | Val.vInt a, Val.vInt b => some (a, b)
      | _, _ => none) df.rows with
    | some ls => .ok ls
    | none => .error .castErr
  else .error .keyErr

/-- The centroids of a successfully read location column are pairwise
distinct (trivially true on a read error). -/
def locsNodupOk : Except MergeErr (List (Int × Int)) → Prop
  | .ok locs => locs.Nodup
  | .error _ => True

instance (e : Except MergeErr (List (Int × Int))) : Decidable (locsNodupOk e) := by
  cases e with
  | ok locs =>
    unfold locsNodupOk
    infer_instance
  | error e =>
    unfold locsNodupOk
    infer_instance

/-- The join `pd.merge(l, r, on=k)`: inner equi-join on the key column `k`, which must
be present on both sides; output columns are the left columns followed by the
non-key right columns, output rows follow the left row order and, per left
row, the right row order. -/
def DF.mergeOn (l r : DF) (k : String) : Except MergeErr DF :=
  if k ∈ l.cols ∧ k ∈ r.cols then
    .ok ⟨l.cols ++ r.cols.filter (fun c => decide (c ≠ k)),
      (l.rows.map (fun a =>
        r.rows.filterMap (fun b =>
          if rowGet b k = rowGet a k then
            some (a ++ b.filter (fun p => decide (p.1 ≠ k)))
          else none))).flatten⟩
  else .error .keyErr

/-- The body of the per-image loop of `merge_CP_DP_batch_data`: slice both
renamed frames to one image, build the `Full_Location` tuple columns, map
each DP location to its closest CP location with `full_loc_map`, drop the
metadata columns from the DP side, join on `Full_Location` and drop the key. -/
def mergeImage (cpR dpR : DF) (metadata_columns : List String) (image_path : Val) :
    Except MergeErr DF :=
  let cp_image_data := cpR.filterEq "Metadata_DNA" image_path
  let dp_image_data := dpR.filterEq "Metadata_DNA" image_path
  match cp_image_data.getLocs with
  | .error e => .error e
  | .ok cpLocs =>
    match dp_image_data.getLocs with
    | .error e => .error e
    | .ok dpLocs =>
      let cp_image_data := cp_image_data.setCol "Full_Location"
        (cpLocs.map (fun p => Val.vLoc p.1 p.2))
      let dp_image_data := dp_image_data.setCol "Full_Location"
        (dpLocs.map (fun p => Val.vLoc p.1 p.2))
      match mapOpt (fun dp_coord =>
          (full_loc_map dp_coord cpLocs).map (fun p => Val.vLoc p.1 p.2)) dpLocs with
      | none => .error .valueErr
      | some mapped =>
        let dp_image_data := dp_image_data.setCol "Full_Location" mapped
        let dp_image_data := dp_image_data.dropCols metadata_columns
        match cp_image_data.mergeOn dp_image_data "Full_Location" with
        | .error e => .error e
        | .ok merged_image_data => .ok (merged_image_data.dropCols ["Full_Location"])

/-- Concatenation `pd.concat` of the compiled per-image frames (with the subsequent
`reset_index(drop=True)`, a no-op here since the embedding keeps no index):
raises on an empty list. -/
def concatFrames : List DF → Except MergeErr DF
  | [] => .error .emptyConcatErr
  | f :: fs => .ok ⟨f.cols, ((f :: fs).map DF.rows).flatten⟩

/-- The insertion `compiled_merged_data.insert(loc=0, column="Cell_UUID", value=cell_uuids)`
with `cell_uuids = [uuid4() for _ in range(n)]`: the fresh identifiers are an
ambient supply indexed by row position; inserting an existing column raises. -/
def insertUuid (df : DF) (supply : Nat → String) : Except MergeErr DF :=
  if "Cell_UUID" ∈ df.cols then .error .insertErr
  else
    .ok ⟨"Cell_UUID" :: df.cols,
      List.zipWith (fun i r => ("Cell_UUID", Val.vStr (supply i)) :: r)
        (List.range df.rows.length) df.rows⟩

/-- The total rename function induced by the dictionary
`{col: f"CP__{col}" for col in cp_columns}`, where `cp_columns` is the set of
CP columns minus the metadata (shared) columns: a column also present on the
DP side keeps its name, any other column gains the `CP__` prefix. -/
def cpRenameF (dpCols : List String) : String → String :=
  fun c => if c ∈ dpCols then c else "CP__" ++ c

/-- The total rename function induced by the dictionary
`{col: f"DP__{col}" for col in dp_columns}`. -/
def dpRenameF (cpCols : List String) : String → String :=
  fun c => if c ∈ cpCols then c else "DP__" ++ c

/-- The column labels of the merged output (before any `Cell_UUID`
insertion), as a function of the two inputs' column lists: the renamed CP
columns followed by the renamed DP columns minus the metadata columns. -/
def baseCols (ccols dcols : List String) : List String :=
  ccols.map (cpRenameF dcols) ++
    (dcols.map (dpRenameF ccols)).filter
      (fun c => decide (c ∉ ccols.filter (fun c' => decide (c' ∈ dcols))))

/-- The body of `merge_CP_DP_batch_data` up to (but excluding) the `Cell_UUID` insertion.
Returns the merge result together with the caller-visible state: the two
input frames after the in-place `astype(int)` coercion and the final value of
`pd.options.mode.chained_assignment` (`true` = warnings enabled, the value
the flag holds before the call; the function sets it to `None` after the
cardinality check and back to `"warn"` just before `pd.concat`). -/
def mergeCore (cp_batch_data dp_batch_data : DF) :
    Except MergeErr DF × DF × DF × Bool :=
  match astypeLoc cp_batch_data with
  | .error e => (.error e, cp_batch_data, dp_batch_data, true)
  | .ok cp1 =>
    match astypeLoc dp_batch_data with
    | .error e => (.error e, cp1, dp_batch_data, true)
    | .ok dp1 =>
      if cp1.rows.length ≠ dp1.rows.length then
        (.error .cardinalityErr, cp1, dp1, true)
      else
        let metadata_columns := cp1.cols.filter (fun c => decide (c ∈ dp1.cols))
        let cpR := cp1.rename (cpRenameF dp1.cols)
        let dpR := dp1.rename (dpRenameF cp1.cols)
        if "Metadata_DNA" ∈ cpR.cols then
          let image_paths := dedupFirst (cpR.getCol "Metadata_DNA")
          match mapExc (fun v => mergeImage cpR dpR metadata_columns v) image_paths with
          | .error e => (.error e, cp1, dp1, false)
          | .ok compiled_merged_data =>
            match concatFrames compiled_merged_data with
            | .error e => (.error e, cp1, dp1, true)
            | .ok out => (.ok out, cp1, dp1, true)
        else (.error .schemaErr, cp1, dp1, false)

/-- The function `merge_CP_DP_batch_data(cp_batch_data, dp_batch_data, add_cell_uuid)`:
the per-image nearest-neighbour merge followed, when `add_cell_uuid` is set,
by the `Cell_UUID` insertion. The returned tuple is
`(result, cp after call, dp after call, chained-assignment warnings enabled)`. -/
def merge_CP_DP_batch_data (cp_batch_data dp_batch_data : DF)
    (add_cell_uuid : Bool) (supply : Nat → String) :
    Except MergeErr DF × DF × DF × Bool :=
  match mergeCore cp_batch_data dp_batch_data with
  | (.ok out, c, d, w) =>
    (if add_cell_uuid then insertUuid out supply else .ok out, c, d, w)
  | e => e

/-- Errors of the directory-scale run: a CP batch file whose name has no
counterpart in the DP directory (`FileNotFoundError` from `pd.read_csv`),
or a failing batch merge. -/
inductive RunErr where
  | fileNotFoundErr (name : String)
  | mergeFailed (e : MergeErr)
deriving DecidableEq

/-- Lexicographic comparison of character lists, by code point (Python's
string ordering). -/
def charListLe : List Char → List Char → Bool
  | [], _ => true
  | _ :: _, [] => false
  | a :: as, b :: bs => if a = b then charListLe as bs else decide (a < b)

/-- Python's `s <= t` on strings: lexicographic by code point. -/
def strLe (s t : String) : Bool := charListLe s.data t.data

/-- Insert one named frame into a name-sorted list (stable, ascending). -/
def insertSorted (x : String × DF) : List (String × DF) → List (String × DF)
  | [] => [x]
  | y :: ys => if strLe x.1 y.1 then x :: y :: ys else y :: insertSorted x ys

/-- The listing `sorted(cp_data_dir_path.iterdir())`: the directory entries in
lexicographically sorted filename order. -/
def sortByName : List (String × DF) → List (String × DF)
  | [] => []
  | x :: xs => insertSorted x (sortByName xs)

/-- Look a file name up in a directory, returning its loaded table. -/
def lookupFile (dir : List (String × DF)) (name : String) : Option DF :=
  (dir.find? (fun p => p.1 == name)).map (fun p => p.2)

/-- The file loop of `save_merged_CP_DP_run`: process the remaining CP batch
files in order, accumulating the merged outputs written so far; a missing DP
counterpart or a failing merge aborts, keeping the outputs already written. -/
def saveRunGo (dpDir : List (String × DF)) (supply : String → Nat → String) :
    List (String × DF) → List (String × DF) → Option RunErr × List (String × DF)
  | [], written => (none, written)
  | (name, cp_batch_data) :: rest, written =>
    match lookupFile dpDir name with
    | none => (some (.fileNotFoundErr name), written)
    | some dp_batch_data =>
      match (merge_CP_DP_batch_data cp_batch_data dp_batch_data true (supply name)).1 with
      | .error e => (some (.mergeFailed e), written)
      | .ok merged => saveRunGo dpDir supply rest (written ++ [(name, merged)])

/-- The function `save_merged_CP_DP_run(cp_data_dir_path, dp_data_dir_path, ...)`: merge
same-named CP and DP batch files, iterating the CP directory in sorted
filename order; directories are finite maps from file name to loaded table,
and the second component of the result is the output directory's content. -/
def save_merged_CP_DP_run (cpDir dpDir : List (String × DF))
    (supply : String → Nat → String) : Option RunErr × List (String × DF) :=
  saveRunGo dpDir supply (sortByName cpDir) []


/-- Trivial identifier supply, for instantiations where the generated
identifiers are irrelevant. -/
def sup0 : Nat → String := fun _ => ""

/-- An injective identifier supply: `n` is mapped to the string of `n`
letters `a`. -/
def supInj : Nat → String := fun n => String.mk (List.replicate n 'a')

/-- A well-formed CP batch frame used to instantiate proved theorems:
one image, two cells, one CP feature column `A`. -/
def cpG : DF :=
  ⟨["Metadata_DNA", "Location_Center_X", "Location_Center_Y", "A"],
   [[("Metadata_DNA", Val.vStr "img1"), ("Location_Center_X", Val.vInt 0),
     ("Location_Center_Y", Val.vInt 0), ("A", Val.vInt 10)],
    [("Metadata_DNA", Val.vStr "img1"), ("Location_Center_X", Val.vInt 5),
     ("Location_Center_Y", Val.vInt 5), ("A", Val.vInt 20)]]⟩

/-- A well-formed DP batch frame matching `cpG`: one image, two cells, one
DP feature column `B`. -/
def dpG : DF :=
  ⟨["Metadata_DNA", "Location_Center_X", "Location_Center_Y", "B"],
   [[("Metadata_DNA", Val.vStr "img1"), ("Location_Center_X", Val.vInt 0),
     ("Location_Center_Y", Val.vInt 1), ("B", Val.vInt 30)],
    [("Metadata_DNA", Val.vStr "img1"), ("Location_Center_X", Val.vInt 6),
     ("Location_Center_Y", Val.vInt 5), ("B", Val.vInt 40)]]⟩

/-- Whether an `Except` result is a success. -/
def excIsOk : Except MergeErr DF → Bool
  | .ok _ => true
  | .error _ => false

/-- A DP frame lacking the `Metadata_DNA` column (schema-error inputs). -/
def dpS : DF :=
  ⟨["Location_Center_X", "Location_Center_Y", "B"],
   [[("Location_Center_X", Val.vInt 0), ("Location_Center_Y", Val.vInt 1),
     ("B", Val.vInt 30)],
    [("Location_Center_X", Val.vInt 6), ("Location_Center_Y", Val.vInt 5),
     ("B", Val.vInt 40)]]⟩

/-- A one-row truncation of `dpG`, giving a total row-count mismatch
against `cpG`. -/
def dpShort : DF :=
  ⟨["Metadata_DNA", "Location_Center_X", "Location_Center_Y", "B"],
   [[("Metadata_DNA", Val.vStr "img1"), ("Location_Center_X", Val.vInt 0),
     ("Location_Center_Y", Val.vInt 1), ("B", Val.vInt 30)]]⟩

/-- CP frame whose image groups are `a, a, b` (three rows): together with
`dpX4` the totals agree but the per-image counts do not. -/
def cpX4 : DF :=
  ⟨["Metadata_DNA", "Location_Center_X", "Location_Center_Y"],
   [[("Metadata_DNA", Val.vStr "a"), ("Location_Center_X", Val.vInt 0),
     ("Location_Center_Y", Val.vInt 0)],
    [("Metadata_DNA", Val.vStr "a"), ("Location_Center_X", Val.vInt 5),
     ("Location_Center_Y", Val.vInt 5)],
    [("Metadata_DNA", Val.vStr "b"), ("Location_Center_X", Val.vInt 0),
     ("Location_Center_Y", Val.vInt 0)]]⟩

/-- DP frame whose image groups are `a, b, b` (three rows). -/
def dpX4 : DF :=
  ⟨["Metadata_DNA", "Location_Center_X", "Location_Center_Y"],
   [[("Metadata_DNA", Val.vStr "a"), ("Location_Center_X", Val.vInt 1),
     ("Location_Center_Y", Val.vInt 1)],
    [("Metadata_DNA", Val.vStr "b"), ("Location_Center_X", Val.vInt 0),
     ("Location_Center_Y", Val.vInt 1)],
    [("Metadata_DNA", Val.vStr "b"), ("Location_Center_X", Val.vInt 8),
     ("Location_Center_Y", Val.vInt 8)]]⟩

/-- CP frame with two cells of one image sharing the same centroid. -/
def cpX3 : DF :=
  ⟨["Metadata_DNA", "Location_Center_X", "Location_Center_Y"],
   [[("Metadata_DNA", Val.vStr "img1"), ("Location_Center_X", Val.vInt 0),
     ("Location_Center_Y", Val.vInt 0)],
    [("Metadata_DNA", Val.vStr "img1"), ("Location_Center_X", Val.vInt 0),
     ("Location_Center_Y", Val.vInt 0)]]⟩

/-- DP frame with two cells of the same image, distinct centroids. -/
def dpX3 : DF :=
  ⟨["Metadata_DNA", "Location_Center_X", "Location_Center_Y"],
   [[("Metadata_DNA", Val.vStr "img1"), ("Location_Center_X", Val.vInt 0),
     ("Location_Center_Y", Val.vInt 0)],
    [("Metadata_DNA", Val.vStr "img1"), ("Location_Center_X", Val.vInt 5),
     ("Location_Center_Y", Val.vInt 5)]]⟩

/-- CP frame with a non-integral location value `3/2`. -/
def cpX8 : DF :=
  ⟨["Metadata_DNA", "Location_Center_X", "Location_Center_Y"],
   [[("Metadata_DNA", Val.vStr "img1"), ("Location_Center_X", Val.vRat (3 / 2)),
     ("Location_Center_Y", Val.vInt 0)]]⟩

/-- DP frame with one integer-valued row, matching `cpX8` in row count. -/
def dpX8 : DF :=
  ⟨["Metadata_DNA", "Location_Center_X", "Location_Center_Y"],
   [[("Metadata_DNA", Val.vStr "img1"), ("Location_Center_X", Val.vInt 0),
     ("Location_Center_Y", Val.vInt 0)]]⟩

/-- CP frame containing a metadata column literally named `DP__B`. -/
def cpX2 : DF :=
  ⟨["Metadata_DNA", "Location_Center_X", "Location_Center_Y", "DP__B"],
   [[("Metadata_DNA", Val.vStr "img1"), ("Location_Center_X", Val.vInt 0),
     ("Location_Center_Y", Val.vInt 0), ("DP__B", Val.vInt 7)]]⟩

/-- DP frame sharing the `DP__B` column and owning an exclusive column `B`
whose prefixed name collides with it. -/
def dpX2 : DF :=
  ⟨["Metadata_DNA", "Location_Center_X", "Location_Center_Y", "DP__B", "B"],
   [[("Metadata_DNA", Val.vStr "img1"), ("Location_Center_X", Val.vInt 0),
     ("Location_Center_Y", Val.vInt 0), ("DP__B", Val.vInt 8),
     ("B", Val.vInt 9)]]⟩

/-- CP frame already containing a shared `Cell_UUID` column. -/
def cpX7 : DF :=
  ⟨["Metadata_DNA", "Location_Center_X", "Location_Center_Y", "Cell_UUID"],
   [[("Metadata_DNA", Val.vStr "img1"), ("Location_Center_X", Val.vInt 0),
     ("Location_Center_Y", Val.vInt 0), ("Cell_UUID", Val.vInt 1)]]⟩

/-- DP frame already containing a shared `Cell_UUID` column. -/
def dpX7 : DF :=
  ⟨["Metadata_DNA", "Location_Center_X", "Location_Center_Y", "Cell_UUID"],
   [[("Metadata_DNA", Val.vStr "img1"), ("Location_Center_X", Val.vInt 0),
     ("Location_Center_Y", Val.vInt 0), ("Cell_UUID", Val.vInt 2)]]⟩

/-- The merged output of `cpG`/`dpG` without identifier insertion. -/
def outG7 : DF :=
  match (merge_CP_DP_batch_data cpG dpG false supInj).1 with
  | .ok o => o
  | .error _ => ⟨[], []⟩

/-- An empty CP frame carrying the required columns. -/
def cpE : DF := ⟨["Metadata_DNA", "Location_Center_X", "Location_Center_Y"], []⟩

/-- An empty DP frame carrying the required columns. -/
def dpE : DF := ⟨["Metadata_DNA", "Location_Center_X", "Location_Center_Y"], []⟩

/-- A CP batch directory with files `a` and `b`. -/
def cpDir6 : List (String × DF) := [("a", cpG), ("b", cpG)]

/-- A DP batch directory with only file `a`. -/
def dpDir6 : List (String × DF) := [("a", dpG)]

/-- The merged output of `cpG`/`dpG` without identifier insertion, under the
trivial supply. -/
def outW2 : DF :=
  match (merge_CP_DP_batch_data cpG dpG false sup0).1 with
  | .ok o => o
  | .error _ => ⟨[], []⟩

/-- A per-file identifier supply for the directory run. -/
def supDir : String → Nat → String := fun _ => sup0

/-- The merged output of directory file `a` (`cpG` against `dpG`, with
identifier insertion). -/
def outA6 : DF :=
  match (merge_CP_DP_batch_data cpG dpG true (supDir "a")).1 with
  | .ok o => o
  | .error _ => ⟨[], []⟩

lemma minByDist_spec (dp : Int × Int) :
    ∀ (cs : List (Int × Int)) (b : Int × Int),
      (minByDist dp b cs = b ∧ ∀ c ∈ cs, dist2 b dp ≤ dist2 c dp) ∨
      (∃ pre r post, cs = pre ++ r :: post ∧ minByDist dp b cs = r ∧
        dist2 r dp < dist2 b dp ∧ (∀ c ∈ pre, dist2 r dp < dist2 c dp) ∧
        (∀ c ∈ post, dist2 r dp ≤ dist2 c dp)) := by
  intro cs
  induction cs with
  | nil => intro b; exact Or.inl ⟨rfl, by simp⟩
  | cons c cs ih =>
    intro b
    by_cases h : dist2 c dp < dist2 b dp
    · rcases ih c with ⟨h1, h2⟩ | ⟨pre, r, post, he, h1, h2, h3, h4⟩
      · refine Or.inr ⟨[], c, cs, rfl, ?_, h, by simp, h2⟩
        simp [minByDist, if_pos h, h1]
      · refine Or.inr ⟨c :: pre, r, post, by rw [he, List.cons_append], ?_, lt_trans h2 h, ?_, h4⟩
        · simp [minByDist, if_pos h, h1]
        · intro x hx
          rcases List.mem_cons.mp hx with rfl | hx
          · exact h2
          · exact h3 x hx
    · rcases ih b with ⟨h1, h2⟩ | ⟨pre, r, post, he, h1, h2, h3, h4⟩
      · refine Or.inl ⟨?_, ?_⟩
        · simp [minByDist, if_neg h, h1]
        · intro x hx
          rcases List.mem_cons.mp hx with rfl | hx
          · exact le_of_not_lt h
          · exact h2 x hx
      · refine Or.inr ⟨c :: pre, r, post, by rw [he, List.cons_append], ?_, h2, ?_, h4⟩
        · simp [minByDist, if_neg h, h1]
        · intro x hx
          rcases List.mem_cons.mp hx with rfl | hx
          · exact lt_of_lt_of_le h2 (le_of_not_lt h)
          · exact h3 x hx

/-- First-minimum characterisation of `full_loc_map` on a nonempty list. -/
lemma full_loc_map_first_min (dp : Int × Int) (locs : List (Int × Int))
    (h : locs ≠ []) :
    ∃ r pre post, full_loc_map dp locs = some r ∧ locs = pre ++ r :: post ∧
      (∀ c ∈ locs, dist2 r dp ≤ dist2 c dp) ∧
      (∀ c ∈ pre, dist2 r dp < dist2 c dp) := by
  match locs with
  | [] => exact absurd rfl h
  | c :: cs =>
    rcases minByDist_spec dp cs c with ⟨h1, h2⟩ | ⟨pre, r, post, he, h1, h2, h3, h4⟩
    · refine ⟨c, [], cs, ?_, rfl, ?_, by simp⟩
      · simp [full_loc_map, h1]
      · intro x hx
        rcases List.mem_cons.mp hx with rfl | hx
        · exact le_refl _
        · exact h2 x hx
    · refine ⟨r, c :: pre, post, ?_, by rw [he, List.cons_append], ?_, ?_⟩
      · simp [full_loc_map, h1]
      · intro x hx
        rcases List.mem_cons.mp hx with rfl | hx
        · exact le_of_lt h2
        · rw [he] at hx
          rcases List.mem_append.mp hx with hx | hx
          · exact le_of_lt (h3 x hx)
          · rcases List.mem_cons.mp hx with rfl | hx
            · exact le_refl _
            · exact h4 x hx
      · intro x hx
        rcases List.mem_cons.mp hx with rfl | hx
        · exact h2
        · exact h3 x hx

/-- The selected centroid is one of the candidates. -/
lemma full_loc_map_mem (dp r : Int × Int) (locs : List (Int × Int))
    (h : full_loc_map dp locs = some r) : r ∈ locs := by
  have hne : locs ≠ [] := by
    intro he; rw [he] at h; exact Option.noConfusion h
  obtain ⟨r', pre, post, h1, h2, _, _⟩ := full_loc_map_first_min dp locs hne
  rw [h] at h1
  obtain rfl : r' = r := by
    injection h1 with h1
    exact h1.symm
  rw [h2]
  exact List.mem_append.mpr (Or.inr (List.mem_cons_self _ _))

/-! ### String helpers: the rename prefixes never collide with the fixed
column names, and prefixing is injective. -/

lemma str_ext {s t : String} (h : s.data = t.data) : s = t := by
  cases s; cases t; exact congrArg String.mk h

lemma cp_app_data (s : String) :
    ("CP__" ++ s).data = 'C' :: 'P' :: '_' :: '_' :: s.data := by
  cases s with
  | mk l => rfl

lemma dp_app_data (s : String) :
    ("DP__" ++ s).data = 'D' :: 'P' :: '_' :: '_' :: s.data := by
  cases s with
  | mk l => rfl

lemma cp_app_ne (s t : String) (h : t.data.take 4 ≠ ['C', 'P', '_', '_']) :
    "CP__" ++ s ≠ t := by
  intro he
  apply h
  rw [← he, cp_app_data]
  rfl

lemma dp_app_ne (s t : String) (h : t.data.take 4 ≠ ['D', 'P', '_', '_']) :
    "DP__" ++ s ≠ t := by
  intro he
  apply h
  rw [← he, dp_app_data]
  rfl

lemma cp_app_inj {s t : String} (h : "CP__" ++ s = "CP__" ++ t) : s = t := by
  have h2 := congrArg String.data h
  rw [cp_app_data, cp_app_data] at h2
  apply str_ext
  simpa using h2

lemma dp_app_inj {s t : String} (h : "DP__" ++ s = "DP__" ++ t) : s = t := by
  have h2 := congrArg String.data h
  rw [dp_app_data, dp_app_data] at h2
  apply str_ext
  simpa using h2

/-! ### Row-level lemmas. -/

lemma recNames_cons (p : String × Val) (t : Rec) :
    recNames (p :: t) = p.1 :: recNames t := rfl

lemma rowGet_cons (n : String) (w : Val) (t : Rec) (c : String) :
    rowGet ((n, w) :: t) c = if n = c then w else rowGet t c := by
  by_cases h : n = c
  · simp [rowGet, List.find?, h]
  · have hb : (n == c) = false := by simpa using h
    simp only [rowGet, List.find?, hb, if_neg h]

lemma rowGet_rowSet_self (r : Rec) (c : String) (v : Val) :
    rowGet (rowSet r c v) c = v := by
  induction r with
  | nil => simp [rowSet, rowGet_cons]
  | cons p t ih =>
    obtain ⟨n, w⟩ := p
    by_cases h : n = c
    · subst h
      simp [rowSet, rowGet_cons]
    · simp [rowSet, h, rowGet_cons, ih]

lemma rowGet_rowSet_ne (r : Rec) (c c' : String) (v : Val) (h : c' ≠ c) :
    rowGet (rowSet r c v) c' = rowGet r c' := by
  induction r with
  | nil => simp [rowSet, rowGet_cons, if_neg (Ne.symm h)]
  | cons p t ih =>
    obtain ⟨n, w⟩ := p
    by_cases hn : n = c
    · subst hn
      simp [rowSet, rowGet_cons, if_neg (Ne.symm h)]
    · simp [rowSet, hn, rowGet_cons, ih]

lemma recNames_rowSet_mem (r : Rec) (c : String) (v : Val) (h : c ∈ recNames r) :
    recNames (rowSet r c v) = recNames r := by
  induction r with
  | nil => simp [recNames] at h
  | cons p t ih =>
    obtain ⟨n, w⟩ := p
    by_cases hn : n = c
    · subst hn
      simp [rowSet, recNames_cons]
    · rw [recNames_cons] at h
      rcases List.mem_cons.mp h with h | h
    
      · exact absurd h.symm hn
      · simp [rowSet, hn, recNames_cons, ih h]

lemma recNames_rowSet_not_mem (r : Rec) (c : String) (v : Val) (h : c ∉ recNames r) :
    recNames (rowSet r c v) = recNames r ++ [c] := by
  induction r with
  | nil => simp [rowSet, recNames]
  | cons p t ih =>
    obtain ⟨n, w⟩ := p
    rw [recNames_cons] at h
    have hn : n ≠ c := fun he => h (he ▸ List.mem_cons_self _ _)
    have ht : c ∉ recNames t := fun hm => h (List.mem_cons_of_mem _ hm)
    simp [rowSet, hn, recNames_cons, ih ht]

lemma rowGet_filterCols (r : Rec) (cs : List String) (c : String) (h : c ∉ cs) :
    rowGet (r.filter (fun p => decide (p.1 ∉ cs))) c = rowGet r c := by
  induction r with
  | nil => rfl
  | cons p t ih =>
    obtain ⟨n, w⟩ := p
    by_cases hn : n ∈ cs
    · have hnc : n ≠ c := fun he => h (he ▸ hn)
      simp only [decide_not] at ih ⊢
      simp [List.filter, hn, rowGet_cons, if_neg hnc, ih]
    · simp only [decide_not] at ih ⊢
      simp [List.filter, hn, rowGet_cons, ih]

lemma recNames_filterCols (r : Rec) (cs : List String) :
    recNames (r.filter (fun p => decide (p.1 ∉ cs))) =
      (recNames r).filter (fun c => decide (c ∉ cs)) := by
  unfold recNames
  induction r with
  | nil => rfl
  | cons p t ih =>
    obtain ⟨n, w⟩ := p
    simp only [decide_not] at ih
    by_cases hn : n ∈ cs
    · simp [List.filter_cons, hn, ih]
    · simp [List.filter_cons, hn, ih]

lemma rowGet_renameRow (f : String → String) (r : Rec) (c : String)
    (h : ∀ n, f n = c ↔ n = c) :
    rowGet (r.map (fun p => (f p.1, p.2))) c = rowGet r c := by
  induction r with
  | nil => rfl
  | cons p t ih =>
    obtain ⟨n, w⟩ := p
    by_cases hn : n = c
    · subst hn
      simp [rowGet_cons, (h n).mpr rfl, ih]
    · have : f n ≠ c := fun he => hn ((h n).mp he)
      simp [rowGet_cons, if_neg this, if_neg hn, ih]

lemma recNames_renameRow (f : String → String) (r : Rec) :
    recNames (r.map (fun p => (f p.1, p.2))) = (recNames r).map f := by
  induction r with
  | nil => rfl
  | cons p t ih =>
    obtain ⟨n, w⟩ := p
    simp [recNames_cons, ih]

/-! ### Lemmas on the fallible maps, deduplication, and counting. -/

lemma mapOpt_forall2 {α β : Type} (f : α → Option β) :
    ∀ (l : List α) (l' : List β), mapOpt f l = some l' →
      List.Forall₂ (fun a b => f a = some b) l l' := by
  intro l
  induction l with
  | nil =>
    intro l' h
    simp only [mapOpt, Option.some.injEq] at h
    rw [← h]
    exact List.Forall₂.nil
  | cons a as ih =>
    intro l' h
    simp only [mapOpt] at h
    cases hfa : f a with
    | none => rw [hfa] at h; simp [Option.bind] at h
    | some b =>
      rw [hfa] at h
      simp only [Option.bind] at h
      cases hm : mapOpt f as with
      | none => rw [hm] at h; simp at h
      | some bs =>
        rw [hm] at h
        simp only [Option.map, Option.some.injEq] at h
        rw [← h]
        exact List.Forall₂.cons hfa (ih bs hm)

lemma mapOpt_length {α β : Type} (f : α → Option β) (l : List α) (l' : List β)
    (h : mapOpt f l = some l') : l'.length = l.length :=
  (mapOpt_forall2 f l l' h).length_eq.symm

lemma mapExc_forall2 (f : α → Except MergeErr β) :
    ∀ (l : List α) (l' : List β), mapExc f l = .ok l' →
      List.Forall₂ (fun a b => f a = .ok b) l l' := by
  intro l
  induction l with
  | nil =>
    intro l' h
    simp only [mapExc, Except.ok.injEq] at h
    rw [← h]
    exact List.Forall₂.nil
  | cons a as ih =>
    intro l' h
    simp only [mapExc] at h
    cases hfa : f a with
    | error e => rw [hfa] at h; simp at h
    | ok b =>
      rw [hfa] at h
      cases hm : mapExc f as with
      | error e => rw [hm] at h; simp at h
      | ok bs =>
        rw [hm] at h
        simp only [Except.ok.injEq] at h
        rw [← h]
        exact List.Forall₂.cons hfa (ih bs hm)

lemma mapExc_error (f : α → Except MergeErr β) :
    ∀ (l : List α) (e : MergeErr), mapExc f l = .error e → ∃ a ∈ l, f a = .error e := by
  intro l
  induction l with
  | nil => intro e h; simp [mapExc] at h
  | cons a as ih =>
    intro e h
    simp only [mapExc] at h
    cases hfa : f a with
    | error e' =>
      rw [hfa] at h
      obtain rfl : e' = e := by injection h
      exact ⟨a, List.mem_cons_self _ _, hfa⟩
    | ok b =>
      rw [hfa] at h
      cases hm : mapExc f as with
      | error e' =>
        rw [hm] at h
        obtain rfl : e' = e := by injection h
        obtain ⟨x, hx, hfx⟩ := ih _ hm
        exact ⟨x, List.mem_cons_of_mem _ hx, hfx⟩
      | ok bs => rw [hm] at h; simp at h

lemma mem_dedupAux (l : List Val) :
    ∀ (seen : List Val) (x : Val), x ∈ dedupAux l seen ↔ x ∈ l ∧ x ∉ seen := by
  induction l with
  | nil => intro seen x; simp [dedupAux]
  | cons a as ih =>
    intro seen x
    by_cases ha : a ∈ seen
    · rw [dedupAux, if_pos ha, ih]
      constructor
      · rintro ⟨hx, hs⟩
        exact ⟨List.mem_cons_of_mem _ hx, hs⟩
      · rintro ⟨hx, hs⟩
        rcases List.mem_cons.mp hx with rfl | hx
        · exact absurd ha hs
        · exact ⟨hx, hs⟩
    · rw [dedupAux, if_neg ha]
      constructor
      · intro hx
        rcases List.mem_cons.mp hx with rfl | hx
        · exact ⟨List.mem_cons_self _ _, ha⟩
        · rw [ih] at hx
          obtain ⟨h1, h2⟩ := hx
          exact ⟨List.mem_cons_of_mem _ h1,
            fun hs => h2 (List.mem_cons_of_mem _ hs)⟩
      · rintro ⟨hx, hs⟩
        rcases List.mem_cons.mp hx with rfl | hx
        · exact List.mem_cons_self _ _
        · by_cases hxa : x = a
          · subst hxa
            exact List.mem_cons_self _ _
          · apply List.mem_cons_of_mem
            rw [ih]
            refine ⟨hx, ?_⟩
            intro hmem
            rcases List.mem_cons.mp hmem with h | h
            · exact hxa h
            · exact hs h

lemma nodup_dedupAux (l : List Val) : ∀ seen, (dedupAux l seen).Nodup := by
  induction l with
  | nil => intro seen; simp [dedupAux]
  | cons a as ih =>
    intro seen
    by_cases ha : a ∈ seen
    · rw [dedupAux, if_pos ha]
      exact ih seen
    · rw [dedupAux, if_neg ha]
      refine List.nodup_cons.mpr ⟨?_, ih _⟩
      rw [mem_dedupAux]
      rintro ⟨-, h2⟩
      exact h2 (List.mem_cons_self _ _)

lemma mem_dedupFirst (l : List Val) (x : Val) : x ∈ dedupFirst l ↔ x ∈ l := by
  rw [dedupFirst, mem_dedupAux]
  simp

lemma nodup_dedupFirst (l : List Val) : (dedupFirst l).Nodup :=
  nodup_dedupAux l []

lemma sum_map_ite_one {α : Type} [DecidableEq α] (V : List α) (x : α)
    (hV : V.Nodup) (hx : x ∈ V) :
    (V.map (fun v => if x = v then 1 else 0)).sum = 1 := by
  induction V with
  | nil => simp at hx
  | cons a V ih =>
    rw [List.nodup_cons] at hV
    rcases List.mem_cons.mp hx with rfl | hx
    · simp only [List.map_cons, List.sum_cons, if_pos rfl]
      have hz : (V.map fun v => if x = v then 1 else 0).sum = 0 := by
        apply List.sum_eq_zero
        intro y hy
        rcases List.mem_map.mp hy with ⟨v, hv, rfl⟩
        rw [if_neg]
        rintro rfl
        exact hV.1 hv
      rw [hz]
      simp
    · have hax : x ≠ a := fun he => hV.1 (he ▸ hx)
      simp only [List.map_cons, List.sum_cons, if_neg hax]
      rw [ih hV.2 hx]

lemma sum_countP_partition {α β : Type} [DecidableEq β] (V : List β) (f : α → β) :
    ∀ (l : List α), V.Nodup → (∀ a ∈ l, f a ∈ V) →
      (V.map (fun v => l.countP (fun a => decide (f a = v)))).sum = l.length := by
  intro l
  induction l with
  | nil =>
    intro _ _
    simp
  | cons a l ih =>
    intro hV hl
    have h1 : V.map (fun v => (a :: l).countP (fun x => decide (f x = v))) =
        V.map (fun v => l.countP (fun x => decide (f x = v)) + if f a = v then 1 else 0) := by
      apply List.map_congr_left
      intro v _
      rw [List.countP_cons]
      simp
    rw [h1, List.sum_map_add, ih hV (fun x hx => hl x (List.mem_cons_of_mem _ hx)),
      sum_map_ite_one V (f a) hV (hl a (List.mem_cons_self _ _))]
    rfl

lemma length_filterMap_guard {α β : Type} (p : α → Prop) [DecidablePred p]
    (g : α → β) (l : List α) :
    (l.filterMap (fun b => if p b then some (g b) else none)).length =
      l.countP (fun b => decide (p b)) := by
  induction l with
  | nil => rfl
  | cons a l ih =>
    by_cases h : p a
    · simp [List.filterMap_cons, h, List.countP_cons, ih]
    · simp [List.filterMap_cons, h, List.countP_cons, ih]

/-! ### Lemmas on the location coercion. -/

lemma locXY_ne : "Location_Center_X" ≠ "Location_Center_Y" := by decide

lemma astypeRow_some {r r' : Rec} (h : astypeRow r = some r') :
    ∃ a b, toIntVal (rowGet r "Location_Center_X") = some a ∧
      toIntVal (rowGet r "Location_Center_Y") = some b ∧
      r' = rowSet (rowSet r "Location_Center_X" (Val.vInt a))
              "Location_Center_Y" (Val.vInt b) := by
  unfold astypeRow at h
  cases hx : toIntVal (rowGet r "Location_Center_X") with
  | none => rw [hx] at h; simp at h
  | some a =>
    rw [hx] at h
    cases hy : toIntVal (rowGet r "Location_Center_Y") with
    | none => rw [hy] at h; simp at h
    | some b =>
      rw [hy] at h
      simp only [Option.some.injEq] at h
      exact ⟨a, b, rfl, rfl, h.symm⟩

lemma astypeRow_get_other {r r' : Rec} (h : astypeRow r = some r') (c : String)
    (hcx : c ≠ "Location_Center_X") (hcy : c ≠ "Location_Center_Y") :
    rowGet r' c = rowGet r c := by
  obtain ⟨a, b, -, -, rfl⟩ := astypeRow_some h
  rw [rowGet_rowSet_ne _ _ _ _ hcy, rowGet_rowSet_ne _ _ _ _ hcx]

lemma astypeRow_getX {r r' : Rec} (h : astypeRow r = some r') :
    ∃ a, rowGet r' "Location_Center_X" = Val.vInt a := by
  obtain ⟨a, b, -, -, rfl⟩ := astypeRow_some h
  exact ⟨a, by rw [rowGet_rowSet_ne _ _ _ _ locXY_ne, rowGet_rowSet_self]⟩

lemma astypeRow_getY {r r' : Rec} (h : astypeRow r = some r') :
    ∃ b, rowGet r' "Location_Center_Y" = Val.vInt b := by
  obtain ⟨a, b, -, -, rfl⟩ := astypeRow_some h
  exact ⟨b, by rw [rowGet_rowSet_self]⟩

lemma astypeRow_recNames {r r' : Rec} (h : astypeRow r = some r')
    (hX : "Location_Center_X" ∈ recNames r)
    (hY : "Location_Center_Y" ∈ recNames r) :
    recNames r' = recNames r := by
  obtain ⟨a, b, -, -, rfl⟩ := astypeRow_some h
  have h1 : recNames (rowSet r "Location_Center_X" (Val.vInt a)) = recNames r :=
    recNames_rowSet_mem _ _ _ hX
  rw [recNames_rowSet_mem _ _ _ (h1.symm ▸ hY), h1]

lemma astypeLoc_ok {df df' : DF} (h : astypeLoc df = .ok df') :
    df'.cols = df.cols ∧ mapOpt astypeRow df.rows = some df'.rows ∧
      "Location_Center_X" ∈ df.cols ∧ "Location_Center_Y" ∈ df.cols := by
  unfold astypeLoc at h
  split at h
  · rename_i hc
    cases hm : mapOpt astypeRow df.rows with
    | none => rw [hm] at h; exact absurd h (by simp)
    | some rs =>
      rw [hm] at h
      injection h with h
      rw [← h]
      exact ⟨rfl, by simp [hm], hc.1, hc.2⟩
  · exact absurd h (by simp)

lemma astypeLoc_length {df df' : DF} (h : astypeLoc df = .ok df') :
    df'.rows.length = df.rows.length :=
  mapOpt_length _ _ _ (astypeLoc_ok h).2.1

lemma forall2_mem_right {α β : Type} {R : α → β → Prop} :
    ∀ {l : List α} {l' : List β}, List.Forall₂ R l l' → ∀ b ∈ l', ∃ a ∈ l, R a b := by
  intro l l' h
  induction h with
  | nil => intro b hb; simp at hb
  | @cons a b l l' hR hrest ih =>
    intro x hx
    rcases List.mem_cons.mp hx with rfl | hx
    · exact ⟨a, List.mem_cons_self _ _, hR⟩
    · obtain ⟨a', ha', hr'⟩ := ih x hx
      exact ⟨a', List.mem_cons_of_mem _ ha', hr'⟩

lemma astypeLoc_WF {df df' : DF} (h : astypeLoc df = .ok df') (hwf : df.WF) :
    df'.WF := by
  obtain ⟨hcols, hrows, hX, hY⟩ := astypeLoc_ok h
  intro r' hr'
  obtain ⟨r, hr, har⟩ := forall2_mem_right (mapOpt_forall2 _ _ _ hrows) r' hr'
  rw [hcols, astypeRow_recNames har (by rw [hwf r hr]; exact hX) (by rw [hwf r hr]; exact hY)]
  exact hwf r hr

/-! ### Frame-level lemmas. -/

lemma map_rowGet_zipWith_rowSet (rs : List Rec) (vs : List Val) (c : String)
    (h : vs.length = rs.length) :
    (List.zipWith (fun r v => rowSet r c v) rs vs).map (fun r => rowGet r c) = vs := by
  induction rs generalizing vs with
  | nil =>
    cases vs with
    | nil => rfl
    | cons v vs => simp at h
  | cons r rs ih =>
    cases vs with
    | nil => simp at h
    | cons v vs =>
      simp only [List.zipWith, List.map_cons, rowGet_rowSet_self]
      rw [ih vs (by simpa using h)]

lemma getCol_setCol_self (df : DF) (c : String) (vs : List Val)
    (hlen : vs.length = df.rows.length) : (df.setCol c vs).getCol c = vs := by
  unfold DF.setCol DF.getCol
  exact map_rowGet_zipWith_rowSet df.rows vs c hlen

lemma setCol_cols_not_mem (df : DF) (c : String) (vs : List Val) (h : c ∉ df.cols) :
    (df.setCol c vs).cols = df.cols ++ [c] := by
  unfold DF.setCol
  rw [if_neg h]

lemma setCol_cols_mem (df : DF) (c : String) (vs : List Val) (h : c ∈ df.cols) :
    (df.setCol c vs).cols = df.cols := by
  unfold DF.setCol
  rw [if_pos h]

lemma setCol_rows_length (df : DF) (c : String) (vs : List Val)
    (hlen : vs.length = df.rows.length) :
    (df.setCol c vs).rows.length = df.rows.length := by
  unfold DF.setCol
  simp [hlen]

lemma dropCols_cols (df : DF) (cs : List String) :
    (df.dropCols cs).cols = df.cols.filter (fun c => decide (c ∉ cs)) := rfl

lemma dropCols_rows_length (df : DF) (cs : List String) :
    (df.dropCols cs).rows.length = df.rows.length := by
  unfold DF.dropCols
  simp

lemma dropCols_getCol (df : DF) (cs : List String) (c : String) (h : c ∉ cs) :
    (df.dropCols cs).getCol c = df.getCol c := by
  unfold DF.dropCols DF.getCol
  simp only [List.map_map]
  apply List.map_congr_left
  intro r _
  exact rowGet_filterCols r cs c h

lemma rename_cols (df : DF) (f : String → String) :
    (df.rename f).cols = df.cols.map f := rfl

lemma rename_getCol (df : DF) (f : String → String) (c : String)
    (h : ∀ n, f n = c ↔ n = c) : (df.rename f).getCol c = df.getCol c := by
  unfold DF.rename DF.getCol
  simp only [List.map_map]
  apply List.map_congr_left
  intro r _
  exact rowGet_renameRow f r c h

lemma filterEq_cols (df : DF) (c : String) (v : Val) :
    (df.filterEq c v).cols = df.cols := rfl

lemma filterEq_rows (df : DF) (c : String) (v : Val) :
    (df.filterEq c v).rows = df.rows.filter (fun r => rowGet r c == v) := rfl

lemma filterEq_rename (df : DF) (f : String → String) (c : String) (v : Val)
    (h : ∀ n, f n = c ↔ n = c) :
    ((df.rename f).filterEq c v).rows =
      (df.rows.filter (fun r => rowGet r c == v)).map
        (fun r => r.map (fun p => (f p.1, p.2))) := by
  unfold DF.rename DF.filterEq
  simp only [List.filter_map]
  congr 1
  apply List.filter_congr
  intro r _
  simp only [Function.comp]
  rw [rowGet_renameRow f r c h]

lemma mergeOn_ok {l r : DF} {k : String} (hl : k ∈ l.cols) (hr : k ∈ r.cols) :
    DF.mergeOn l r k = .ok ⟨l.cols ++ r.cols.filter (fun c => decide (c ≠ k)),
      (l.rows.map (fun a => r.rows.filterMap (fun b =>
        if rowGet b k = rowGet a k then
          some (a ++ b.filter (fun p => decide (p.1 ≠ k)))
        else none))).flatten⟩ := by
  unfold DF.mergeOn
  rw [if_pos ⟨hl, hr⟩]

lemma mergeOn_rows_length {l r : DF} {k : String} {m : DF}
    (h : DF.mergeOn l r k = .ok m) (hnd : (l.getCol k).Nodup)
    (hmem : ∀ b ∈ r.rows, rowGet b k ∈ l.getCol k) :
    m.rows.length = r.rows.length := by
  unfold DF.mergeOn at h
  split at h
  · injection h with h
    rw [← h]
    simp only
    rw [List.length_flatten, List.map_map]
    have h1 : (List.length ∘ fun a => r.rows.filterMap (fun b =>
        if rowGet b k = rowGet a k then
          some (a ++ b.filter (fun p => decide (p.1 ≠ k)))
        else none)) =
        fun a => r.rows.countP (fun b => decide (rowGet b k = rowGet a k)) := by
      funext a
      exact length_filterMap_guard _ _ _
    rw [h1]
    have h2 : l.rows.map (fun a => r.rows.countP (fun b => decide (rowGet b k = rowGet a k))) =
        (l.getCol k).map (fun v => r.rows.countP (fun b => decide (rowGet b k = v))) := by
      unfold DF.getCol
      rw [List.map_map]
      rfl
    rw [h2]
    exact sum_countP_partition (l.getCol k) (fun b => rowGet b k) r.rows hnd hmem
  · exact absurd h (by simp)

/-! ### Lemmas on the rename functions. -/

lemma cpRenameF_eq_iff (dcols : List String) (c : String) (hc : c ∈ dcols)
    (hshape : c.data.take 4 ≠ ['C', 'P', '_', '_']) (n : String) :
    cpRenameF dcols n = c ↔ n = c := by
  unfold cpRenameF
  by_cases hn : n ∈ dcols
  · rw [if_pos hn]
  · rw [if_neg hn]
    constructor
    · intro h
      exact absurd h (cp_app_ne n c hshape)
    · rintro rfl
      exact absurd hc hn

lemma dpRenameF_eq_iff (ccols : List String) (c : String) (hc : c ∈ ccols)
    (hshape : c.data.take 4 ≠ ['D', 'P', '_', '_']) (n : String) :
    dpRenameF ccols n = c ↔ n = c := by
  unfold dpRenameF
  by_cases hn : n ∈ ccols
  · rw [if_pos hn]
  · rw [if_neg hn]
    constructor
    · intro h
      exact absurd h (dp_app_ne n c hshape)
    · rintro rfl
      exact absurd hc hn

lemma mem_map_cpRenameF (cols dcols : List String) :
    "Metadata_DNA" ∈ cols.map (cpRenameF dcols) ↔
      "Metadata_DNA" ∈ cols ∧ "Metadata_DNA" ∈ dcols := by
  constructor
  · intro h
    rcases List.mem_map.mp h with ⟨c, hc, hfc⟩
    unfold cpRenameF at hfc
    by_cases hcd : c ∈ dcols
    · rw [if_pos hcd] at hfc
      exact ⟨hfc ▸ hc, hfc ▸ hcd⟩
    · rw [if_neg hcd] at hfc
      exact absurd hfc (cp_app_ne c _ (by decide))
  · rintro ⟨h1, h2⟩
    refine List.mem_map.mpr ⟨"Metadata_DNA", h1, ?_⟩
    unfold cpRenameF
    rw [if_pos h2]

/-! ### Error classification of the pipeline stages. -/

lemma astypeLoc_empty (df : DF) (hX : "Location_Center_X" ∈ df.cols)
    (hY : "Location_Center_Y" ∈ df.cols) (h : df.rows = []) :
    astypeLoc df = .ok ⟨df.cols, []⟩ := by
  unfold astypeLoc
  rw [if_pos ⟨hX, hY⟩, h]
  rfl

lemma astypeLoc_error {df : DF} {e : MergeErr} (h : astypeLoc df = .error e) :
    e = .keyErr ∨ e = .castErr := by
  unfold astypeLoc at h
  split at h
  · cases hm : mapOpt astypeRow df.rows with
    | none =>
      rw [hm] at h
      injection h with h
      exact Or.inr h.symm
    | some rs => rw [hm] at h; exact absurd h (by simp)
  · injection h with h
    exact Or.inl h.symm

lemma getLocs_error {df : DF} {e : MergeErr} (h : DF.getLocs df = .error e) :
    e = .keyErr ∨ e = .castErr := by
  unfold DF.getLocs at h
  split at h
  · split at h
    · exact absurd h (by simp)
    · injection h with h
      exact Or.inr h.symm
  · injection h with h
    exact Or.inl h.symm

lemma mergeOn_error {l r : DF} {k : String} {e : MergeErr}
    (h : DF.mergeOn l r k = .error e) : e = .keyErr := by
  unfold DF.mergeOn at h
  split at h
  · exact absurd h (by simp)
  · injection h with h
    exact h.symm

lemma mergeImage_error {cpR dpR : DF} {md : List String} {v : Val} {e : MergeErr}
    (h : mergeImage cpR dpR md v = .error e) :
    e = .keyErr ∨ e = .castErr ∨ e = .valueErr := by
  simp only [mergeImage] at h
  split at h
  · rename_i e' hg
    injection h with h
    rcases getLocs_error hg with h' | h' <;> rw [← h, h']
    · exact Or.inl rfl
    · exact Or.inr (Or.inl rfl)
  · split at h
    · rename_i e' hg
      injection h with h
      rcases getLocs_error hg with h' | h' <;> rw [← h, h']
      · exact Or.inl rfl
      · exact Or.inr (Or.inl rfl)
    · split at h
      · injection h with h
        exact Or.inr (Or.inr h.symm)
      · split at h
        · rename_i e' hm
          injection h with h
          rw [← h, mergeOn_error hm]
          exact Or.inl rfl
        · exact absurd h (by simp)

/-! ### Path lemmas for `mergeCore` and the wrapper. -/

lemma match_state (m : Except MergeErr (List DF)) (cp1 dp1 : DF) :
    ((match m with
      | .error e => ((.error e : Except MergeErr DF), cp1, dp1, false)
      | .ok frames =>
        match concatFrames frames with
        | .error e => (.error e, cp1, dp1, true)
        | .ok out => (.ok out, cp1, dp1, true)).2.1 = cp1 ∧
     (match m with
      | .error e => ((.error e : Except MergeErr DF), cp1, dp1, false)
      | .ok frames =>
        match concatFrames frames with
        | .error e => (.error e, cp1, dp1, true)
        | .ok out => (.ok out, cp1, dp1, true)).2.2.1 = dp1) := by
  cases m with
  | error e => exact ⟨rfl, rfl⟩
  | ok frames =>
    have hgen : ∀ (m2 : Except MergeErr DF),
        ((match m2 with
          | .error e => ((.error e : Except MergeErr DF), cp1, dp1, true)
          | .ok out => (.ok out, cp1, dp1, true)).2.1 = cp1 ∧
         (match m2 with
          | .error e => ((.error e : Except MergeErr DF), cp1, dp1, true)
          | .ok out => (.ok out, cp1, dp1, true)).2.2.1 = dp1) := by
      intro m2
      cases m2 with
      | error e => exact ⟨rfl, rfl⟩
      | ok out => exact ⟨rfl, rfl⟩
    exact hgen (concatFrames frames)

lemma mergeCore_cardinality {cp dp cp1 dp1 : DF} (h1 : astypeLoc cp = .ok cp1)
    (h2 : astypeLoc dp = .ok dp1) (hne : cp1.rows.length ≠ dp1.rows.length) :
    mergeCore cp dp = (.error .cardinalityErr, cp1, dp1, true) := by
  unfold mergeCore
  simp only [h1, h2]
  rw [if_pos hne]

lemma mergeCore_schema {cp dp cp1 dp1 : DF} (h1 : astypeLoc cp = .ok cp1)
    (h2 : astypeLoc dp = .ok dp1) (hlen : cp1.rows.length = dp1.rows.length)
    (hmd : ¬("Metadata_DNA" ∈ cp1.cols ∧ "Metadata_DNA" ∈ dp1.cols)) :
    mergeCore cp dp = (.error .schemaErr, cp1, dp1, false) := by
  unfold mergeCore
  simp only [h1, h2]
  rw [if_neg (by simp [hlen])]
  rw [if_neg (by rw [rename_cols, mem_map_cpRenameF]; exact hmd)]

lemma mergeCore_run {cp dp cp1 dp1 : DF} (h1 : astypeLoc cp = .ok cp1)
    (h2 : astypeLoc dp = .ok dp1) (hlen : cp1.rows.length = dp1.rows.length)
    (hmd : "Metadata_DNA" ∈ cp1.cols ∧ "Metadata_DNA" ∈ dp1.cols) :
    mergeCore cp dp =
      (match mapExc (fun v => mergeImage (cp1.rename (cpRenameF dp1.cols))
          (dp1.rename (dpRenameF cp1.cols))
          (cp1.cols.filter (fun c => decide (c ∈ dp1.cols))) v)
          (dedupFirst ((cp1.rename (cpRenameF dp1.cols)).getCol "Metadata_DNA")) with
       | .error e => (.error e, cp1, dp1, false)
       | .ok frames =>
         match concatFrames frames with
         | .error e => (.error e, cp1, dp1, true)
         | .ok out => (.ok out, cp1, dp1, true)) := by
  unfold mergeCore
  simp only [h1, h2]
  rw [if_neg (by simp [hlen])]
  rw [if_pos (by rw [rename_cols, mem_map_cpRenameF]; exact hmd)]

lemma mergeCore_state {cp dp cp1 dp1 : DF} (h1 : astypeLoc cp = .ok cp1)
    (h2 : astypeLoc dp = .ok dp1) :
    (mergeCore cp dp).2.1 = cp1 ∧ (mergeCore cp dp).2.2.1 = dp1 := by
  unfold mergeCore
  simp only [h1, h2]
  by_cases hlen : cp1.rows.length ≠ dp1.rows.length
  · rw [if_pos hlen]
    exact ⟨rfl, rfl⟩
  · rw [if_neg hlen]
    by_cases hmd : "Metadata_DNA" ∈ ((cp1.rename (cpRenameF dp1.cols)).cols)
    · rw [if_pos hmd]
      exact match_state _ cp1 dp1
    · rw [if_neg hmd]
      exact ⟨rfl, rfl⟩

lemma merge_false_eq_core (cp dp : DF) (supply : Nat → String) :
    merge_CP_DP_batch_data cp dp false supply = mergeCore cp dp := by
  unfold merge_CP_DP_batch_data
  cases hq : mergeCore cp dp with
  | mk r s =>
    obtain ⟨c, d, w⟩ := s
    cases r with
    | ok out => rfl
    | error e => rfl

lemma merge_state (cp dp : DF) (u : Bool) (supply : Nat → String) :
    (merge_CP_DP_batch_data cp dp u supply).2 = (mergeCore cp dp).2 := by
  unfold merge_CP_DP_batch_data
  cases hq : mergeCore cp dp with
  | mk r s =>
    obtain ⟨c, d, w⟩ := s
    cases r with
    | ok out => rfl
    | error e => rfl

/-! ### Warn-flag and wrapper lemmas. -/

lemma concatFrames_error {fs : List DF} {e : MergeErr}
    (h : concatFrames fs = .error e) : e = .emptyConcatErr := by
  cases fs with
  | nil =>
    injection h with h
    exact h.symm
  | cons f fs => exact absurd h (by simp [concatFrames])

lemma insertUuid_error {df : DF} {sup : Nat → String} {e : MergeErr}
    (h : insertUuid df sup = .error e) : e = .insertErr := by
  unfold insertUuid at h
  split at h
  · injection h with h
    exact h.symm
  · exact absurd h (by simp)

lemma match_warn (m : Except MergeErr (List DF)) (cp1 dp1 : DF)
    (hm : ∀ e, m = .error e → e = .keyErr ∨ e = .castErr ∨ e = .valueErr) :
    (excIsOk (match m with
      | .error e => ((.error e : Except MergeErr DF), cp1, dp1, false)
      | .ok frames =>
        match concatFrames frames with
        | .error e => (.error e, cp1, dp1, true)
        | .ok out => (.ok out, cp1, dp1, true)).1 = true →
      (match m with
      | .error e => ((.error e : Except MergeErr DF), cp1, dp1, false)
      | .ok frames =>
        match concatFrames frames with
        | .error e => (.error e, cp1, dp1, true)
        | .ok out => (.ok out, cp1, dp1, true)).2.2.2 = true) ∧
    ((match m with
      | .error e => ((.error e : Except MergeErr DF), cp1, dp1, false)
      | .ok frames =>
        match concatFrames frames with
        | .error e => (.error e, cp1, dp1, true)
        | .ok out => (.ok out, cp1, dp1, true)).1 = .error .emptyConcatErr →
      (match m with
      | .error e => ((.error e : Except MergeErr DF), cp1, dp1, false)
      | .ok frames =>
        match concatFrames frames with
        | .error e => (.error e, cp1, dp1, true)
        | .ok out => (.ok out, cp1, dp1, true)).2.2.2 = true) ∧
    ((match m with
      | .error e => ((.error e : Except MergeErr DF), cp1, dp1, false)
      | .ok frames =>
        match concatFrames frames with
        | .error e => (.error e, cp1, dp1, true)
        | .ok out => (.ok out, cp1, dp1, true)).1 = .error .cardinalityErr →
      (match m with
      | .error e => ((.error e : Except MergeErr DF), cp1, dp1, false)
      | .ok frames =>
        match concatFrames frames with
        | .error e => (.error e, cp1, dp1, true)
        | .ok out => (.ok out, cp1, dp1, true)).2.2.2 = true) ∧
    ((match m with
      | .error e => ((.error e : Except MergeErr DF), cp1, dp1, false)
      | .ok frames =>
        match concatFrames frames with
        | .error e => (.error e, cp1, dp1, true)
        | .ok out => (.ok out, cp1, dp1, true)).1 = .error .schemaErr →
      (match m with
      | .error e => ((.error e : Except MergeErr DF), cp1, dp1, false)
      | .ok frames =>
        match concatFrames frames with
        | .error e => (.error e, cp1, dp1, true)
        | .ok out => (.ok out, cp1, dp1, true)).2.2.2 = false) := by
  cases m with
  | error e =>
    refine ⟨fun hk => absurd hk (by simp [excIsOk]), fun h2 => ?_, fun h3 => ?_,
      fun _ => rfl⟩
    · injection h2 with h2
      rcases hm e rfl with h | h | h <;> rw [h] at h2 <;> exact MergeErr.noConfusion h2
    · injection h3 with h3
      rcases hm e rfl with h | h | h <;> rw [h] at h3 <;> exact MergeErr.noConfusion h3
  | ok frames =>
    have hgen : ∀ (m2 : Except MergeErr DF), (∀ e, m2 = .error e → e = .emptyConcatErr) →
        (excIsOk (match m2 with
          | .error e => ((.error e : Except MergeErr DF), cp1, dp1, true)
          | .ok out => (.ok out, cp1, dp1, true)).1 = true →
          (match m2 with
          | .error e => ((.error e : Except MergeErr DF), cp1, dp1, true)
          | .ok out => (.ok out, cp1, dp1, true)).2.2.2 = true) ∧
        ((match m2 with
          | .error e => ((.error e : Except MergeErr DF), cp1, dp1, true)
          | .ok out => (.ok out, cp1, dp1, true)).1 = .error .emptyConcatErr →
          (match m2 with
          | .error e => ((.error e : Except MergeErr DF), cp1, dp1, true)
          | .ok out => (.ok out, cp1, dp1, true)).2.2.2 = true) ∧
        ((match m2 with
          | .error e => ((.error e : Except MergeErr DF), cp1, dp1, true)
          | .ok out => (.ok out, cp1, dp1, true)).1 = .error .cardinalityErr →
          (match m2 with
          | .error e => ((.error e : Except MergeErr DF), cp1, dp1, true)
          | .ok out => (.ok out, cp1, dp1, true)).2.2.2 = true) ∧
        ((match m2 with
          | .error e => ((.error e : Except MergeErr DF), cp1, dp1, true)
          | .ok out => (.ok out, cp1, dp1, true)).1 = .error .schemaErr →
          (match m2 with
          | .error e => ((.error e : Except MergeErr DF), cp1, dp1, true)
          | .ok out => (.ok out, cp1, dp1, true)).2.2.2 = false) := by
      intro m2 hm2
      cases m2 with
      | error e =>
        refine ⟨fun _ => rfl, fun _ => rfl, fun _ => rfl, fun h4 => ?_⟩
        injection h4 with h4
        rw [hm2 e rfl] at h4
        exact MergeErr.noConfusion h4
      | ok out =>
        exact ⟨fun _ => rfl, fun _ => rfl, fun _ => rfl,
          fun h4 => absurd h4 (by simp)⟩
    exact hgen (concatFrames frames) (fun e he => concatFrames_error he)

lemma mergeCore_astype_error1 {cp dp : DF} {e : MergeErr}
    (h : astypeLoc cp = .error e) :
    mergeCore cp dp = (.error e, cp, dp, true) := by
  unfold mergeCore
  simp only [h]

lemma mergeCore_astype_error2 {cp dp cp1 : DF} {e : MergeErr}
    (h1 : astypeLoc cp = .ok cp1) (h2 : astypeLoc dp = .error e) :
    mergeCore cp dp = (.error e, cp1, dp, true) := by
  unfold mergeCore
  simp only [h1, h2]

lemma mergeCore_warn (cp dp : DF) :
    (excIsOk (mergeCore cp dp).1 = true → (mergeCore cp dp).2.2.2 = true) ∧
    ((mergeCore cp dp).1 = .error .emptyConcatErr →
      (mergeCore cp dp).2.2.2 = true) ∧
    ((mergeCore cp dp).1 = .error .cardinalityErr →
      (mergeCore cp dp).2.2.2 = true) ∧
    ((mergeCore cp dp).1 = .error .schemaErr →
      (mergeCore cp dp).2.2.2 = false) := by
  cases h1 : astypeLoc cp with
  | error e =>
    rw [mergeCore_astype_error1 h1]
    refine ⟨fun _ => rfl, fun _ => rfl, fun _ => rfl, fun h4 => ?_⟩
    injection h4 with h4
    rcases astypeLoc_error h1 with h | h <;> rw [h] at h4 <;>
      exact MergeErr.noConfusion h4
  | ok cp1 =>
    cases h2 : astypeLoc dp with
    | error e =>
      rw [mergeCore_astype_error2 h1 h2]
      refine ⟨fun _ => rfl, fun _ => rfl, fun _ => rfl, fun h4 => ?_⟩
      injection h4 with h4
      rcases astypeLoc_error h2 with h | h <;> rw [h] at h4 <;>
        exact MergeErr.noConfusion h4
    | ok dp1 =>
      by_cases hlen : cp1.rows.length = dp1.rows.length
      · by_cases hmd : "Metadata_DNA" ∈ cp1.cols ∧ "Metadata_DNA" ∈ dp1.cols
        · rw [mergeCore_run h1 h2 hlen hmd]
          refine match_warn _ cp1 dp1 ?_
          intro e he
          obtain ⟨v, hv, hfv⟩ := mapExc_error _ _ e he
          exact mergeImage_error hfv
        · rw [mergeCore_schema h1 h2 hlen hmd]
          refine ⟨fun hk => absurd hk (by simp [excIsOk]), fun h2' => ?_,
            fun h3' => ?_, fun _ => rfl⟩
          · injection h2' with h2'
            exact MergeErr.noConfusion h2'
          · injection h3' with h3'
            exact MergeErr.noConfusion h3'
      · rw [mergeCore_cardinality h1 h2 hlen]
        refine ⟨fun _ => rfl, fun _ => rfl, fun _ => rfl, fun h4 => ?_⟩
        injection h4 with h4
        exact MergeErr.noConfusion h4

lemma merge_result (cp dp : DF) (u : Bool) (sup : Nat → String) :
    (merge_CP_DP_batch_data cp dp u sup).1 =
      (match (mergeCore cp dp).1 with
       | .error e => .error e
       | .ok out => if u then insertUuid out sup else .ok out) := by
  unfold merge_CP_DP_batch_data
  cases hq : mergeCore cp dp with
  | mk r s =>
    obtain ⟨c, d, w⟩ := s
    cases r with
    | ok out => rfl
    | error e => rfl

lemma dist2_nonneg (a b : Int × Int) : 0 ≤ dist2 a b := by
  unfold dist2
  positivity

lemma run_match_result (m : Except MergeErr (List DF)) (cp1 dp1 : DF) :
    (match m with
      | .error e => ((.error e : Except MergeErr DF), cp1, dp1, false)
      | .ok frames =>
        match concatFrames frames with
        | .error e => (.error e, cp1, dp1, true)
        | .ok out => (.ok out, cp1, dp1, true)).1 =
      (match m with
       | .error e => .error e
       | .ok frames => concatFrames frames) := by
  cases m with
  | error e => rfl
  | ok frames =>
    have hgen : ∀ m2 : Except MergeErr DF,
        (match m2 with
          | .error e => ((.error e : Except MergeErr DF), cp1, dp1, true)
          | .ok out => (.ok out, cp1, dp1, true)).1 = m2 := by
      intro m2
      cases m2 with
      | error e => rfl
      | ok out => rfl
    exact hgen (concatFrames frames)

lemma mergeCore_result_classify {cp dp cp1 dp1 : DF}
    (h1 : astypeLoc cp = .ok cp1) (h2 : astypeLoc dp = .ok dp1)
    (hlen : cp1.rows.length = dp1.rows.length)
    (hmd : "Metadata_DNA" ∈ cp1.cols ∧ "Metadata_DNA" ∈ dp1.cols) {e : MergeErr}
    (h : (mergeCore cp dp).1 = .error e) :
    e = .keyErr ∨ e = .castErr ∨ e = .valueErr ∨ e = .emptyConcatErr := by
  rw [mergeCore_run h1 h2 hlen hmd, run_match_result] at h
  cases hm : mapExc (fun v => mergeImage (cp1.rename (cpRenameF dp1.cols))
      (dp1.rename (dpRenameF cp1.cols))
      (cp1.cols.filter (fun c => decide (c ∈ dp1.cols))) v)
      (dedupFirst ((cp1.rename (cpRenameF dp1.cols)).getCol "Metadata_DNA")) with
  | error e' =>
    rw [hm] at h
    have h' : (Except.error e' : Except MergeErr DF) = .error e := h
    injection h' with h'
    subst h'
    obtain ⟨v, -, hfv⟩ := mapExc_error _ _ _ hm
    rcases mergeImage_error hfv with h | h | h
    · exact Or.inl h
    · exact Or.inr (Or.inl h)
    · exact Or.inr (Or.inr (Or.inl h))
  | ok frames =>
    rw [hm] at h
    have h' : concatFrames frames = .error e := h
    have he := concatFrames_error h'
    exact Or.inr (Or.inr (Or.inr he))

/-! ### Claim theorems. -/

/-- C1: for every DP centroid and every nonempty collection of CP centroids,
`full_loc_map` returns a CP centroid of minimal Euclidean distance
`sqrt((x1-x2)^2 + (y1-y2)^2)` to the DP centroid, and it is the first
minimal one in the collection's iteration order (every earlier candidate is
strictly farther). -/
theorem C1_full_loc_map_nearest (dp_coord : Int × Int) (locs : List (Int × Int))
    (h : locs ≠ []) :
    ∃ r pre post, full_loc_map dp_coord locs = some r ∧ locs = pre ++ r :: post ∧
      (∀ c ∈ locs, Real.sqrt ((dist2 r dp_coord : Int) : ℝ) ≤
        Real.sqrt ((dist2 c dp_coord : Int) : ℝ)) ∧
      (∀ c ∈ pre, Real.sqrt ((dist2 r dp_coord : Int) : ℝ) <
        Real.sqrt ((dist2 c dp_coord : Int) : ℝ)) := by
  obtain ⟨r, pre, post, h1, h2, h3, h4⟩ := full_loc_map_first_min dp_coord locs h
  refine ⟨r, pre, post, h1, h2, ?_, ?_⟩
  · intro c hc
    apply Real.sqrt_le_sqrt
    exact_mod_cast h3 c hc
  · intro c hc
    apply Real.sqrt_lt_sqrt
    · exact_mod_cast dist2_nonneg r dp_coord
    · exact_mod_cast h4 c hc

/-- Witness for C1: a DP cell at `(0,0)` against CP cells at `(0,1)` and
`(10,10)`. -/
theorem C1_full_loc_map_nearest_witness :
    (([((0 : Int), (1 : Int)), (10, 10)] : List (Int × Int)) ≠ []) ∧
    (∃ r pre post,
      full_loc_map (0, 0) ([((0 : Int), (1 : Int)), (10, 10)]) = some r ∧
      ([((0 : Int), (1 : Int)), (10, 10)] : List (Int × Int)) = pre ++ r :: post ∧
      (∀ c ∈ ([((0 : Int), (1 : Int)), (10, 10)] : List (Int × Int)),
        Real.sqrt ((dist2 r (0, 0) : Int) : ℝ) ≤
          Real.sqrt ((dist2 c (0, 0) : Int) : ℝ)) ∧
      (∀ c ∈ pre, Real.sqrt ((dist2 r (0, 0) : Int) : ℝ) <
        Real.sqrt ((dist2 c (0, 0) : Int) : ℝ))) :=
  ⟨by decide, C1_full_loc_map_nearest (0, 0) ([((0 : Int), (1 : Int)), (10, 10)])
    (by decide)⟩

/-- C4 (amended): given that the location-column coercion succeeds on both
inputs, `merge_CP_DP_batch_data` raises the cardinality error exactly when
the two inputs' total row counts differ; a per-image-group mismatch with
equal totals is not detected and does not raise. -/
theorem C4_cardinality_error_iff_total (cp dp cp1 dp1 : DF) (u : Bool)
    (sup : Nat → String) (h1 : astypeLoc cp = .ok cp1)
    (h2 : astypeLoc dp = .ok dp1) :
    ((merge_CP_DP_batch_data cp dp u sup).1 = .error .cardinalityErr ↔
      cp.rows.length ≠ dp.rows.length) := by
  rw [merge_result]
  constructor
  · intro h
    by_contra hne'
    have hlen : cp1.rows.length = dp1.rows.length := by
      rw [astypeLoc_length h1, astypeLoc_length h2]
      exact hne'
    cases hc : (mergeCore cp dp).1 with
    | error e =>
      rw [hc] at h
      have h' : (Except.error e : Except MergeErr DF) = .error .cardinalityErr := h
      injection h' with h'
      subst h'
      by_cases hmd : "Metadata_DNA" ∈ cp1.cols ∧ "Metadata_DNA" ∈ dp1.cols
      · rcases mergeCore_result_classify h1 h2 hlen hmd hc with h | h | h | h <;>
          exact MergeErr.noConfusion h
      · rw [mergeCore_schema h1 h2 hlen hmd] at hc
        have h'' : (Except.error MergeErr.schemaErr : Except MergeErr DF) =
            .error .cardinalityErr := hc
        injection h'' with h''
        exact MergeErr.noConfusion h''
    | ok out =>
      rw [hc] at h
      cases u with
      | false =>
        exact Except.noConfusion
          (show (Except.ok out : Except MergeErr DF) = .error .cardinalityErr from h)
      | true =>
        have := insertUuid_error
          (show insertUuid out sup = .error .cardinalityErr from h)
        exact MergeErr.noConfusion this
  · intro hne
    have hlen : cp1.rows.length ≠ dp1.rows.length := by
      rw [astypeLoc_length h1, astypeLoc_length h2]
      exact hne
    rw [mergeCore_cardinality h1 h2 hlen]

/-- Witness for C4 at `cpG` (two rows) against `dpShort` (one row). -/
theorem C4_cardinality_error_iff_total_witness :
    astypeLoc cpG = .ok cpG ∧ astypeLoc dpShort = .ok dpShort ∧
    ((merge_CP_DP_batch_data cpG dpShort false sup0).1 = .error .cardinalityErr ↔
      cpG.rows.length ≠ dpShort.rows.length) :=
  ⟨by decide, by decide,
    C4_cardinality_error_iff_total cpG dpShort cpG dpShort false sup0
      (by decide) (by decide)⟩

/-- Counterexample to C4 as stated: `cpX4`/`dpX4` have equal totals (3 = 3)
but image group `a` has two CP rows and one DP row; no cardinality error is
raised and a merged output is produced. -/
theorem C4_counterexample :
    excIsOk (merge_CP_DP_batch_data cpX4 dpX4 false sup0).1 = true ∧
    (cpX4.rows.filter
      (fun r => rowGet r "Metadata_DNA" == Val.vStr "a")).length = 2 ∧
    (dpX4.rows.filter
      (fun r => rowGet r "Metadata_DNA" == Val.vStr "a")).length = 1 := by
  decide

/-- C5 (amended): with coercible location columns and equal total row counts,
the schema error is raised exactly when `Metadata_DNA` fails to be a shared
(metadata) column, i.e. when it is missing from the CP input or from the DP
input; the check happens on the renamed frame, before any matching work, so
the outcome is independent of the row data. -/
theorem C5_schema_error_iff_not_shared (cp dp cp1 dp1 : DF) (u : Bool)
    (sup : Nat → String) (h1 : astypeLoc cp = .ok cp1)
    (h2 : astypeLoc dp = .ok dp1) (hlen : cp.rows.length = dp.rows.length) :
    ((merge_CP_DP_batch_data cp dp u sup).1 = .error .schemaErr ↔
      ¬("Metadata_DNA" ∈ cp.cols ∧ "Metadata_DNA" ∈ dp.cols)) := by
  have hlen1 : cp1.rows.length = dp1.rows.length := by
    rw [astypeLoc_length h1, astypeLoc_length h2]
    exact hlen
  have hc1 : cp1.cols = cp.cols := (astypeLoc_ok h1).1
  have hd1 : dp1.cols = dp.cols := (astypeLoc_ok h2).1
  rw [merge_result]
  constructor
  · intro h
    by_contra hmd'
    have hmd : "Metadata_DNA" ∈ cp1.cols ∧ "Metadata_DNA" ∈ dp1.cols := by
      rw [hc1, hd1]
      exact hmd'
    cases hc : (mergeCore cp dp).1 with
    | error e =>
      rw [hc] at h
      have h' : (Except.error e : Except MergeErr DF) = .error .schemaErr := h
      injection h' with h'
      subst h'
      rcases mergeCore_result_classify h1 h2 hlen1 hmd hc with h | h | h | h <;>
        exact MergeErr.noConfusion h
    | ok out =>
      rw [hc] at h
      cases u with
      | false =>
        exact Except.noConfusion
          (show (Except.ok out : Except MergeErr DF) = .error .schemaErr from h)
      | true =>
        have := insertUuid_error
          (show insertUuid out sup = .error .schemaErr from h)
        exact MergeErr.noConfusion this
  · intro hmd
    have hmd1 : ¬("Metadata_DNA" ∈ cp1.cols ∧ "Metadata_DNA" ∈ dp1.cols) := by
      rw [hc1, hd1]
      exact hmd
    rw [mergeCore_schema h1 h2 hlen1 hmd1]

/-- Witness for C5 at `cpG` against the `Metadata_DNA`-less `dpS`. -/
theorem C5_schema_error_iff_not_shared_witness :
    astypeLoc cpG = .ok cpG ∧ astypeLoc dpS = .ok dpS ∧
    cpG.rows.length = dpS.rows.length ∧
    ((merge_CP_DP_batch_data cpG dpS false sup0).1 = .error .schemaErr ↔
      ¬("Metadata_DNA" ∈ cpG.cols ∧ "Metadata_DNA" ∈ dpS.cols)) :=
  ⟨by decide, by decide, by decide,
    C5_schema_error_iff_not_shared cpG dpS cpG dpS false sup0
      (by decide) (by decide) (by decide)⟩

/-- Counterexample to C5 as stated: `Metadata_DNA` is present in the CP
input `cpG`, yet the schema error is still raised because the DP side lacks
the column (the CP copy is renamed to `CP__Metadata_DNA` before the check). -/
theorem C5_counterexample :
    (merge_CP_DP_batch_data cpG dpS false sup0).1 = .error .schemaErr ∧
    "Metadata_DNA" ∈ cpG.cols := by
  decide

/-- C9 (amended): the chained-assignment warning flag ends `true` (enabled)
on every normal return, on the empty-concat error and on the cardinality
error (the latter is raised before the suppression), but the schema error is
raised inside the suppressed region and leaves the flag disabled. -/
theorem C9_warn_restoration_incomplete (cp dp : DF) (u : Bool) (sup : Nat → String) :
    (excIsOk (merge_CP_DP_batch_data cp dp u sup).1 = true →
      (merge_CP_DP_batch_data cp dp u sup).2.2.2 = true) ∧
    ((merge_CP_DP_batch_data cp dp u sup).1 = .error .emptyConcatErr →
      (merge_CP_DP_batch_data cp dp u sup).2.2.2 = true) ∧
    ((merge_CP_DP_batch_data cp dp u sup).1 = .error .cardinalityErr →
      (merge_CP_DP_batch_data cp dp u sup).2.2.2 = true) ∧
    ((merge_CP_DP_batch_data cp dp u sup).1 = .error .schemaErr →
      (merge_CP_DP_batch_data cp dp u sup).2.2.2 = false) := by
  have hflag : (merge_CP_DP_batch_data cp dp u sup).2.2.2 =
      (mergeCore cp dp).2.2.2 := by
    rw [merge_state]
  have hres := merge_result cp dp u sup
  obtain ⟨w1, w2, w3, w4⟩ := mergeCore_warn cp dp
  refine ⟨?_, ?_, ?_, ?_⟩
  · intro hk
    rw [hflag]
    apply w1
    rw [hres] at hk
    cases hc : (mergeCore cp dp).1 with
    | error e =>
      rw [hc] at hk
      exact absurd (show excIsOk (.error e) = true from hk) (by simp [excIsOk])
    | ok out => simp [excIsOk]
  · intro he
    rw [hflag]
    rw [hres] at he
    cases hc : (mergeCore cp dp).1 with
    | error e' =>
      rw [hc] at he
      have he' : e' = .emptyConcatErr := by
        have h'' : (Except.error e' : Except MergeErr DF) =
          .error .emptyConcatErr := he
        injection h'' with h''
      apply w2
      rw [hc, he']
    | ok out =>
      exfalso
      rw [hc] at he
      cases u with
      | false =>
        exact Except.noConfusion
          (show (Except.ok out : Except MergeErr DF) = .error .emptyConcatErr from he)
      | true =>
        have := insertUuid_error
          (show insertUuid out sup = .error .emptyConcatErr from he)
        exact MergeErr.noConfusion this
  · intro he
    rw [hflag]
    rw [hres] at he
    cases hc : (mergeCore cp dp).1 with
    | error e' =>
      rw [hc] at he
      have he' : e' = .cardinalityErr := by
        have h'' : (Except.error e' : Except MergeErr DF) =
          .error .cardinalityErr := he
        injection h'' with h''
      apply w3
      rw [hc, he']
    | ok out =>
      exfalso
      rw [hc] at he
      cases u with
      | false =>
        exact Except.noConfusion
          (show (Except.ok out : Except MergeErr DF) = .error .cardinalityErr from he)
      | true =>
        have := insertUuid_error
          (show insertUuid out sup = .error .cardinalityErr from he)
        exact MergeErr.noConfusion this
  · intro he
    rw [hflag]
    rw [hres] at he
    cases hc : (mergeCore cp dp).1 with
    | error e' =>
      rw [hc] at he
      have he' : e' = .schemaErr := by
        have h'' : (Except.error e' : Except MergeErr DF) = .error .schemaErr := he
        injection h'' with h''
      apply w4
      rw [hc, he']
    | ok out =>
      exfalso
      rw [hc] at he
      cases u with
      | false =>
        exact Except.noConfusion
          (show (Except.ok out : Except MergeErr DF) = .error .schemaErr from he)
      | true =>
        have := insertUuid_error
          (show insertUuid out sup = .error .schemaErr from he)
        exact MergeErr.noConfusion this

/-- Witness for C9: a successful run on `cpG`/`dpG` ends with the warning
flag enabled. -/
theorem C9_warn_restoration_incomplete_witness :
    excIsOk (merge_CP_DP_batch_data cpG dpG true supInj).1 = true ∧
    (merge_CP_DP_batch_data cpG dpG true supInj).2.2.2 = true :=
  ⟨by decide, (C9_warn_restoration_incomplete cpG dpG true supInj).1 (by decide)⟩

/-- Counterexample to C9 as stated: on the schema-error exit the warning
flag is left disabled (`pd.options.mode.chained_assignment` stays `None`). -/
theorem C9_counterexample :
    (merge_CP_DP_batch_data cpG dpS true sup0).1 = .error .schemaErr ∧
    (merge_CP_DP_batch_data cpG dpS true sup0).2.2.2 = false := by
  decide

/-- C10: on two empty inputs carrying the required columns (locations and a
shared `Metadata_DNA`), the cardinality check passes, the image loop runs
zero times, and `pd.concat([])` raises instead of returning an empty merged
table. -/
theorem C10_empty_inputs_raise (cp dp : DF) (u : Bool) (sup : Nat → String)
    (hX1 : "Location_Center_X" ∈ cp.cols) (hY1 : "Location_Center_Y" ∈ cp.cols)
    (hX2 : "Location_Center_X" ∈ dp.cols) (hY2 : "Location_Center_Y" ∈ dp.cols)
    (hm1 : "Metadata_DNA" ∈ cp.cols) (hm2 : "Metadata_DNA" ∈ dp.cols)
    (hcp : cp.rows = []) (hdp : dp.rows = []) :
    (merge_CP_DP_batch_data cp dp u sup).1 = .error .emptyConcatErr := by
  have h1 : astypeLoc cp = .ok ⟨cp.cols, []⟩ := astypeLoc_empty cp hX1 hY1 hcp
  have h2 : astypeLoc dp = .ok ⟨dp.cols, []⟩ := astypeLoc_empty dp hX2 hY2 hdp
  rw [merge_result, mergeCore_run h1 h2 rfl ⟨hm1, hm2⟩, run_match_result]
  rfl

/-- Witness for C10 at the empty frames `cpE`/`dpE`. -/
theorem C10_empty_inputs_raise_witness :
    (merge_CP_DP_batch_data cpE dpE true sup0).1 = .error .emptyConcatErr :=
  C10_empty_inputs_raise cpE dpE true sup0 (by decide) (by decide) (by decide)
    (by decide) (by decide) (by decide) rfl rfl

lemma supInj_injective : Function.Injective supInj := by
  intro a b h
  unfold supInj at h
  have h2 := congrArg (fun s => s.data.length) h
  simpa using h2

lemma saveRunGo_missing (dpDir : List (String × DF)) (sup : String → Nat → String)
    (name : String) (df : DF) (rest : List (String × DF)) :
    ∀ (pre : List (String × DF)) (acc : List (String × DF)),
      lookupFile dpDir name = none →
      (∀ p ∈ pre, ∃ d m, lookupFile dpDir p.1 = some d ∧
        (merge_CP_DP_batch_data p.2 d true (sup p.1)).1 = .ok m) →
      ∃ ms, saveRunGo dpDir sup (pre ++ (name, df) :: rest) acc =
        (some (.fileNotFoundErr name), acc ++ ms) ∧
        ms.map Prod.fst = pre.map Prod.fst := by
  intro pre
  induction pre with
  | nil =>
    intro acc hmiss hpre
    refine ⟨[], ?_, rfl⟩
    simp only [List.nil_append, saveRunGo, hmiss]
    simp
  | cons p pre ih =>
    intro acc hmiss hpre
    obtain ⟨n0, f0⟩ := p
    obtain ⟨d, m, hd, hm⟩ := hpre (n0, f0) (List.mem_cons_self _ _)
    have hstep : saveRunGo dpDir sup (((n0, f0) :: pre) ++ (name, df) :: rest) acc =
        saveRunGo dpDir sup (pre ++ (name, df) :: rest) (acc ++ [(n0, m)]) := by
      simp only [List.cons_append, saveRunGo, hd, hm]
      rfl
    obtain ⟨ms, hgo, hmap⟩ := ih (acc ++ [(n0, m)]) hmiss
      (fun q hq => hpre q (List.mem_cons_of_mem _ hq))
    refine ⟨(n0, m) :: ms, ?_, ?_⟩
    · rw [hstep, hgo, List.append_assoc]
      rfl
    · simp [hmap]

/-- C8 (amended): the only side effect of `merge_CP_DP_batch_data` on its
inputs is the in-place integer coercion of the two location columns — after
the call (on any outcome past the coercion) the caller's frames are the
coerced frames, whose columns are unchanged and whose rows agree with the
originals on every column other than `Location_Center_X` and
`Location_Center_Y`. -/
theorem C8_side_effect_astype_only (cp dp cp1 dp1 : DF) (u : Bool)
    (sup : Nat → String) (h1 : astypeLoc cp = .ok cp1)
    (h2 : astypeLoc dp = .ok dp1) :
    (merge_CP_DP_batch_data cp dp u sup).2.1 = cp1 ∧
    (merge_CP_DP_batch_data cp dp u sup).2.2.1 = dp1 ∧
    cp1.cols = cp.cols ∧ dp1.cols = dp.cols ∧
    List.Forall₂ (fun r r' => ∀ c, c ≠ "Location_Center_X" →
      c ≠ "Location_Center_Y" → rowGet r' c = rowGet r c) cp.rows cp1.rows ∧
    List.Forall₂ (fun r r' => ∀ c, c ≠ "Location_Center_X" →
      c ≠ "Location_Center_Y" → rowGet r' c = rowGet r c) dp.rows dp1.rows := by
  have hs := merge_state cp dp u sup
  obtain ⟨hsc, hsd⟩ := mergeCore_state h1 h2
  refine ⟨?_, ?_, (astypeLoc_ok h1).1, (astypeLoc_ok h2).1, ?_, ?_⟩
  · rw [hs]
    exact hsc
  · rw [hs]
    exact hsd
  · refine List.Forall₂.imp ?_ (mapOpt_forall2 _ _ _ (astypeLoc_ok h1).2.1)
    intro r r' hrr c hcx hcy
    exact astypeRow_get_other hrr c hcx hcy
  · refine List.Forall₂.imp ?_ (mapOpt_forall2 _ _ _ (astypeLoc_ok h2).2.1)
    intro r r' hrr c hcx hcy
    exact astypeRow_get_other hrr c hcx hcy

/-- Witness for C8 at the integer-valued frames `cpG`/`dpG`, on which the
coercion is the identity. -/
theorem C8_side_effect_astype_only_witness :
    astypeLoc cpG = .ok cpG ∧ astypeLoc dpG = .ok dpG ∧
    ((merge_CP_DP_batch_data cpG dpG false sup0).2.1 = cpG ∧
     (merge_CP_DP_batch_data cpG dpG false sup0).2.2.1 = dpG ∧
     cpG.cols = cpG.cols ∧ dpG.cols = dpG.cols ∧
     List.Forall₂ (fun r r' => ∀ c, c ≠ "Location_Center_X" →
       c ≠ "Location_Center_Y" → rowGet r' c = rowGet r c) cpG.rows cpG.rows ∧
     List.Forall₂ (fun r r' => ∀ c, c ≠ "Location_Center_X" →
       c ≠ "Location_Center_Y" → rowGet r' c = rowGet r c) dpG.rows dpG.rows) :=
  ⟨by decide, by decide,
    C8_side_effect_astype_only cpG dpG cpG dpG false sup0 (by decide) (by decide)⟩

/-- Counterexample to C8 as stated: an input with location value `3/2` is
mutated in place by the coercion, so the caller's CP frame differs after the
call. -/
theorem C8_counterexample :
    (merge_CP_DP_batch_data cpX8 dpX8 false sup0).2.1 ≠ cpX8 := by
  decide

/-- C7 (amended): when the merged output does not already carry a
`Cell_UUID` column, running with `add_cell_uuid` set returns the
`add_cell_uuid`-unset output with one extra `Cell_UUID` column inserted at
the first position, holding the `i`-th freshly supplied identifier in row
`i` (depending only on the row position, not on row content), identical
caller-visible state, and pairwise-distinct identifiers whenever the supply
is injective. -/
theorem C7_cell_uuid_insertion (cp dp : DF) (sup : Nat → String) (out : DF)
    (hok : (merge_CP_DP_batch_data cp dp false sup).1 = .ok out)
    (hnc : "Cell_UUID" ∉ out.cols) :
    (merge_CP_DP_batch_data cp dp true sup).1 =
      .ok ⟨"Cell_UUID" :: out.cols,
        List.zipWith (fun i r => ("Cell_UUID", Val.vStr (sup i)) :: r)
          (List.range out.rows.length) out.rows⟩ ∧
    (merge_CP_DP_batch_data cp dp true sup).2 =
      (merge_CP_DP_batch_data cp dp false sup).2 ∧
    (Function.Injective sup → ((List.range out.rows.length).map sup).Nodup) := by
  rw [merge_false_eq_core] at hok
  refine ⟨?_, ?_, ?_⟩
  · rw [merge_result, hok]
    show insertUuid out sup = _
    unfold insertUuid
    rw [if_neg hnc]
  · rw [merge_state, merge_state]
  · intro hinj
    exact (List.nodup_range _).map hinj

/-- Witness for C7 on `cpG`/`dpG` with the injective supply `supInj`. -/
theorem C7_cell_uuid_insertion_witness :
    (merge_CP_DP_batch_data cpG dpG false supInj).1 = .ok outG7 ∧
    "Cell_UUID" ∉ outG7.cols ∧
    ((merge_CP_DP_batch_data cpG dpG true supInj).1 =
      .ok ⟨"Cell_UUID" :: outG7.cols,
        List.zipWith (fun i r => ("Cell_UUID", Val.vStr (supInj i)) :: r)
          (List.range outG7.rows.length) outG7.rows⟩) ∧
    ((List.range outG7.rows.length).map supInj).Nodup :=
  ⟨by decide, by decide,
    (C7_cell_uuid_insertion cpG dpG supInj outG7 (by decide) (by decide)).1,
    (C7_cell_uuid_insertion cpG dpG supInj outG7 (by decide) (by decide)).2.2
      supInj_injective⟩

/-- Counterexample to C7 as stated: inputs sharing a `Cell_UUID` column merge
successfully with `add_cell_uuid` unset, but raise (`df.insert` of an
existing column) with it set, so the set-run output does not equal the
unset-run output plus one column. -/
theorem C7_counterexample :
    excIsOk (merge_CP_DP_batch_data cpX7 dpX7 true sup0).1 = false ∧
    excIsOk (merge_CP_DP_batch_data cpX7 dpX7 false sup0).1 = true := by
  decide

/-- C6: during `save_merged_CP_DP_run`, if the sorted CP directory listing is
`pre ++ (name, df) :: rest` where `name` has no DP counterpart and every
earlier file merges successfully, the run stops at `name` with a
file-not-found error, and the destination holds exactly the outputs for the
earlier file names. -/
theorem C6_missing_counterpart (cpDir dpDir : List (String × DF))
    (sup : String → Nat → String) (pre rest : List (String × DF))
    (name : String) (df : DF)
    (hsort : sortByName cpDir = pre ++ (name, df) :: rest)
    (hmiss : lookupFile dpDir name = none)
    (hpre : ∀ p ∈ pre, ∃ d m, lookupFile dpDir p.1 = some d ∧
      (merge_CP_DP_batch_data p.2 d true (sup p.1)).1 = .ok m) :
    (save_merged_CP_DP_run cpDir dpDir sup).1 = some (.fileNotFoundErr name) ∧
    (save_merged_CP_DP_run cpDir dpDir sup).2.map Prod.fst =
      pre.map Prod.fst := by
  unfold save_merged_CP_DP_run
  rw [hsort]
  obtain ⟨ms, hgo, hmap⟩ := saveRunGo_missing dpDir sup name df rest pre [] hmiss hpre
  rw [hgo]
  exact ⟨rfl, by simpa using hmap⟩

/-- Witness for C6: CP directory `a, b`, DP directory `a` only; the run
aborts at `b` with the output for `a` already written. -/
theorem C6_missing_counterpart_witness :
    sortByName cpDir6 = [("a", cpG)] ++ ("b", cpG) :: [] ∧
    lookupFile dpDir6 "b" = none ∧
    ((save_merged_CP_DP_run cpDir6 dpDir6 supDir).1 =
      some (.fileNotFoundErr "b") ∧
     (save_merged_CP_DP_run cpDir6 dpDir6 supDir).2.map Prod.fst =
      ([("a", cpG)] : List (String × DF)).map Prod.fst) := by
  have hpre : ∀ p ∈ ([("a", cpG)] : List (String × DF)),
      ∃ d m, lookupFile dpDir6 p.1 = some d ∧
        (merge_CP_DP_batch_data p.2 d true (supDir p.1)).1 = .ok m := by
    intro p hp
    rw [List.mem_singleton] at hp
    subst hp
    exact ⟨dpG, outA6, by decide, by decide⟩
  exact ⟨by decide, by decide,
    C6_missing_counterpart cpDir6 dpDir6 supDir [("a", cpG)] [] "b" cpG
      (by decide) (by decide) hpre⟩

/-! ### Success-path elimination lemmas. -/

lemma cp_app_take (s : String) :
    ("CP__" ++ s).data.take 4 = ['C', 'P', '_', '_'] := by
  cases s with
  | mk l => rfl

lemma dp_app_take (s : String) :
    ("DP__" ++ s).data.take 4 = ['D', 'P', '_', '_'] := by
  cases s with
  | mk l => rfl

lemma mergeOn_ok_elim {l r : DF} {k : String} {m : DF}
    (h : DF.mergeOn l r k = .ok m) :
    (k ∈ l.cols ∧ k ∈ r.cols) ∧
    m.cols = l.cols ++ r.cols.filter (fun c => decide (c ≠ k)) ∧
    m.rows = (l.rows.map (fun a => r.rows.filterMap (fun b =>
      if rowGet b k = rowGet a k then
        some (a ++ b.filter (fun p => decide (p.1 ≠ k)))
      else none))).flatten := by
  unfold DF.mergeOn at h
  split at h
  · rename_i hk
    injection h with h
    rw [← h]
    exact ⟨hk, rfl, rfl⟩
  · exact absurd h (by simp)

lemma concatFrames_ok {fs : List DF} {out : DF} (h : concatFrames fs = .ok out) :
    ∃ f fs', fs = f :: fs' ∧ out.cols = f.cols ∧
      out.rows = ((f :: fs').map DF.rows).flatten := by
  cases fs with
  | nil => exact absurd h (by simp [concatFrames])
  | cons f fs' =>
    injection h with h
    rw [← h]
    exact ⟨f, fs', rfl, rfl, rfl⟩

lemma insertUuid_ok {df out : DF} {sup : Nat → String}
    (h : insertUuid df sup = .ok out) :
    "Cell_UUID" ∉ df.cols ∧ out.cols = "Cell_UUID" :: df.cols ∧
      out.rows.length = df.rows.length := by
  unfold insertUuid at h
  split at h
  · exact absurd h (by simp)
  · rename_i hnc
    injection h with h
    rw [← h]
    refine ⟨hnc, rfl, ?_⟩
    simp

lemma mergeCore_ok {cp dp out : DF} (h : (mergeCore cp dp).1 = .ok out) :
    ∃ cp1 dp1, astypeLoc cp = .ok cp1 ∧ astypeLoc dp = .ok dp1 ∧
      cp1.rows.length = dp1.rows.length ∧
      ("Metadata_DNA" ∈ cp1.cols ∧ "Metadata_DNA" ∈ dp1.cols) ∧
      ∃ frames,
        mapExc (fun v => mergeImage (cp1.rename (cpRenameF dp1.cols))
          (dp1.rename (dpRenameF cp1.cols))
          (cp1.cols.filter (fun c => decide (c ∈ dp1.cols))) v)
          (dedupFirst ((cp1.rename (cpRenameF dp1.cols)).getCol "Metadata_DNA")) =
          .ok frames ∧
        concatFrames frames = .ok out := by
  cases h1 : astypeLoc cp with
  | error e =>
    rw [mergeCore_astype_error1 h1] at h
    exact absurd (show (Except.error e : Except MergeErr DF) = .ok out from h) (by simp)
  | ok cp1 =>
    cases h2 : astypeLoc dp with
    | error e =>
      rw [mergeCore_astype_error2 h1 h2] at h
      exact absurd (show (Except.error e : Except MergeErr DF) = .ok out from h) (by simp)
    | ok dp1 =>
      by_cases hlen : cp1.rows.length = dp1.rows.length
      · by_cases hmd : "Metadata_DNA" ∈ cp1.cols ∧ "Metadata_DNA" ∈ dp1.cols
        · rw [mergeCore_run h1 h2 hlen hmd, run_match_result] at h
          cases hm : mapExc (fun v => mergeImage (cp1.rename (cpRenameF dp1.cols))
              (dp1.rename (dpRenameF cp1.cols))
              (cp1.cols.filter (fun c => decide (c ∈ dp1.cols))) v)
              (dedupFirst ((cp1.rename (cpRenameF dp1.cols)).getCol "Metadata_DNA")) with
          | error e =>
            rw [hm] at h
            exact absurd (show (Except.error e : Except MergeErr DF) = .ok out from h)
              (by simp)
          | ok frames =>
            rw [hm] at h
            exact ⟨cp1, dp1, rfl, rfl, hlen, hmd, frames, hm, h⟩
        · rw [mergeCore_schema h1 h2 hlen hmd] at h
          exact absurd
            (show (Except.error MergeErr.schemaErr : Except MergeErr DF) = .ok out from h)
            (by simp)
      · rw [mergeCore_cardinality h1 h2 hlen] at h
        exact absurd
          (show (Except.error MergeErr.cardinalityErr : Except MergeErr DF) = .ok out from h)
          (by simp)

lemma merge_ok {cp dp : DF} {u : Bool} {sup : Nat → String} {out : DF}
    (h : (merge_CP_DP_batch_data cp dp u sup).1 = .ok out) :
    ∃ out0, (mergeCore cp dp).1 = .ok out0 ∧
      ((u = false ∧ out = out0) ∨ (u = true ∧ insertUuid out0 sup = .ok out)) := by
  rw [merge_result] at h
  cases hc : (mergeCore cp dp).1 with
  | error e =>
    rw [hc] at h
    exact absurd (show (Except.error e : Except MergeErr DF) = .ok out from h) (by simp)
  | ok out0 =>
    rw [hc] at h
    cases u with
    | false =>
      have h' : (Except.ok out0 : Except MergeErr DF) = .ok out := h
      injection h' with h'
      exact ⟨out0, rfl, Or.inl ⟨rfl, h'.symm⟩⟩
    | true =>
      exact ⟨out0, rfl, Or.inr ⟨rfl, h⟩⟩

lemma mergeImage_ok_cols {cpR dpR : DF} {md : List String} {v : Val} {mi : DF}
    (h : mergeImage cpR dpR md v = .ok mi)
    (hFLc : "Full_Location" ∉ cpR.cols) (hFLd : "Full_Location" ∉ dpR.cols)
    (hFLm : "Full_Location" ∉ md) :
    mi.cols = cpR.cols ++ dpR.cols.filter (fun c => decide (c ∉ md)) := by
  simp only [mergeImage] at h
  split at h
  · exact absurd h (by simp)
  · rename_i cpLocs hg1
    split at h
    · exact absurd h (by simp)
    · rename_i dpLocs hg2
      split at h
      · exact absurd h (by simp)
      · rename_i mapped hmo
        split at h
        · exact absurd h (by simp)
        · rename_i merged hmrg
          injection h with h
          rw [← h]
          obtain ⟨-, hmcols, -⟩ := mergeOn_ok_elim hmrg
          rw [dropCols_cols, hmcols]
          have hl : ((cpR.filterEq "Metadata_DNA" v).setCol "Full_Location"
              (cpLocs.map (fun p => Val.vLoc p.1 p.2))).cols =
              cpR.cols ++ ["Full_Location"] := by
            rw [setCol_cols_not_mem]
            · rw [filterEq_cols]
            · rw [filterEq_cols]
              exact hFLc
          have hr0 : ((dpR.filterEq "Metadata_DNA" v).setCol "Full_Location"
              (dpLocs.map (fun p => Val.vLoc p.1 p.2))).cols =
              dpR.cols ++ ["Full_Location"] := by
            rw [setCol_cols_not_mem]
            · rw [filterEq_cols]
            · rw [filterEq_cols]
              exact hFLd
          have hr1 : ((((dpR.filterEq "Metadata_DNA" v).setCol "Full_Location"
              (dpLocs.map (fun p => Val.vLoc p.1 p.2))).setCol "Full_Location"
              mapped).dropCols md).cols =
              dpR.cols.filter (fun c => decide (c ∉ md)) ++ ["Full_Location"] := by
            rw [dropCols_cols, setCol_cols_mem, hr0]
            · rw [List.filter_append]
              congr 1
              simp [hFLm]
            · rw [hr0]
              exact List.mem_append_right _ (List.mem_singleton.mpr rfl)
          rw [hl, hr1]
          have hA : ((dpR.cols.filter (fun c => decide (c ∉ md))) ++
              ["Full_Location"]).filter
              (fun c => decide (c ≠ "Full_Location")) =
              dpR.cols.filter (fun c => decide (c ∉ md)) := by
            rw [List.filter_append]
            have h1 : ["Full_Location"].filter
                (fun c => decide (c ≠ "Full_Location")) = [] := by simp
            rw [h1, List.append_nil]
            apply List.filter_eq_self.mpr
            intro a ha
            rw [List.mem_filter] at ha
            simp only [decide_eq_true_eq]
            intro hEq
            exact hFLd (hEq ▸ ha.1)
          rw [hA, List.filter_append, List.filter_append]
          have hB : cpR.cols.filter
              (fun c => decide (c ∉ ["Full_Location"])) = cpR.cols := by
            apply List.filter_eq_self.mpr
            intro a ha
            simp only [List.mem_singleton, decide_eq_true_eq]
            intro hEq
            exact hFLc (hEq ▸ ha)
          have hC : ["Full_Location"].filter
              (fun c => decide (c ∉ ["Full_Location"])) = ([] : List String) := by
            simp
          have hD : (dpR.cols.filter (fun c => decide (c ∉ md))).filter
              (fun c => decide (c ∉ ["Full_Location"])) =
              dpR.cols.filter (fun c => decide (c ∉ md)) := by
            apply List.filter_eq_self.mpr
            intro a ha
            rw [List.mem_filter] at ha
            simp only [List.mem_singleton, decide_eq_true_eq]
            intro hEq
            exact hFLd (hEq ▸ ha.1)
          rw [hB, hC, hD, List.append_nil]

/-! ### Counting lemmas for the merged column list. -/

lemma mem_md_iff (ccols dcols : List String) (x : String) :
    x ∈ ccols.filter (fun c' => decide (c' ∈ dcols)) ↔
      x ∈ ccols ∧ x ∈ dcols := by
  rw [List.mem_filter]
  simp

lemma baseCols_count_shared (ccols dcols : List String) (hnd1 : ccols.Nodup)
    (hcol1 : ∀ m ∈ ccols, m ∈ dcols → ∀ e ∈ ccols, e ∉ dcols → m ≠ "CP__" ++ e)
    (m : String) (hm1 : m ∈ ccols) (hm2 : m ∈ dcols) :
    (baseCols ccols dcols).count m = 1 := by
  unfold baseCols
  rw [List.count_append]
  have hcp : (ccols.map (cpRenameF dcols)).count m = 1 := by
    rw [List.count_eq_countP, List.countP_map]
    have step : ccols.countP ((fun x => x == m) ∘ cpRenameF dcols) =
        ccols.countP (fun x => x == m) := by
      apply List.countP_congr
      intro c hc
      simp only [Function.comp_apply, beq_iff_eq]
      unfold cpRenameF
      by_cases hcd : c ∈ dcols
      · rw [if_pos hcd]
      · rw [if_neg hcd]
        constructor
        · intro hEq
          exact absurd hEq.symm (hcol1 m hm1 hm2 c hc hcd)
        · rintro rfl
          exact absurd hm2 hcd
    rw [step, ← List.count_eq_countP]
    exact List.count_eq_one_of_mem hnd1 hm1
  have hdp : ((dcols.map (dpRenameF ccols)).filter
      (fun c => decide (c ∉ ccols.filter (fun c' => decide (c' ∈ dcols))))).count m
      = 0 := by
    apply List.count_eq_zero.mpr
    intro hmem
    rw [List.mem_filter] at hmem
    obtain ⟨-, hkeep⟩ := hmem
    simp only [decide_eq_true_eq] at hkeep
    exact hkeep ((mem_md_iff ccols dcols m).mpr ⟨hm1, hm2⟩)
  rw [hcp, hdp]

lemma baseCols_count_cp_excl (ccols dcols : List String) (hnd1 : ccols.Nodup)
    (hcol1 : ∀ m ∈ ccols, m ∈ dcols → ∀ e ∈ ccols, e ∉ dcols → m ≠ "CP__" ++ e)
    (e : String) (he1 : e ∈ ccols) (he2 : e ∉ dcols) :
    (baseCols ccols dcols).count ("CP__" ++ e) = 1 := by
  unfold baseCols
  rw [List.count_append]
  have hcp : (ccols.map (cpRenameF dcols)).count ("CP__" ++ e) = 1 := by
    rw [List.count_eq_countP, List.countP_map]
    have step : ccols.countP ((fun x => x == "CP__" ++ e) ∘ cpRenameF dcols) =
        ccols.countP (fun x => x == e) := by
      apply List.countP_congr
      intro c hc
      simp only [Function.comp_apply, beq_iff_eq]
      unfold cpRenameF
      by_cases hcd : c ∈ dcols
      · rw [if_pos hcd]
        constructor
        · intro hEq
          exact absurd hEq (hcol1 c hc hcd e he1 he2)
        · rintro rfl
          exact absurd hcd he2
      · rw [if_neg hcd]
        constructor
        · intro hEq
          exact cp_app_inj hEq
        · rintro rfl
          rfl
    rw [step, ← List.count_eq_countP]
    exact List.count_eq_one_of_mem hnd1 he1
  have hdp : ((dcols.map (dpRenameF ccols)).filter
      (fun c => decide (c ∉ ccols.filter (fun c' => decide (c' ∈ dcols))))).count
      ("CP__" ++ e) = 0 := by
    apply List.count_eq_zero.mpr
    intro hmem
    rw [List.mem_filter] at hmem
    obtain ⟨hmem1, -⟩ := hmem
    rcases List.mem_map.mp hmem1 with ⟨c, hc, hgc⟩
    unfold dpRenameF at hgc
    by_cases hcc : c ∈ ccols
    · rw [if_pos hcc] at hgc
      exact absurd hgc (hcol1 c hcc hc e he1 he2)
    · rw [if_neg hcc] at hgc
      exact dp_app_ne c ("CP__" ++ e) (by rw [cp_app_take]; decide) hgc
  rw [hcp, hdp]

lemma baseCols_count_dp_excl (ccols dcols : List String) (hnd2 : dcols.Nodup)
    (hcol2 : ∀ m ∈ ccols, m ∈ dcols → ∀ e ∈ dcols, e ∉ ccols → m ≠ "DP__" ++ e)
    (e : String) (he1 : e ∈ dcols) (he2 : e ∉ ccols) :
    (baseCols ccols dcols).count ("DP__" ++ e) = 1 := by
  unfold baseCols
  rw [List.count_append]
  have hcp : (ccols.map (cpRenameF dcols)).count ("DP__" ++ e) = 0 := by
    apply List.count_eq_zero.mpr
    intro hmem
    rcases List.mem_map.mp hmem with ⟨c, hc, hfc⟩
    unfold cpRenameF at hfc
    by_cases hcd : c ∈ dcols
    · rw [if_pos hcd] at hfc
      exact absurd hfc (hcol2 c hc hcd e he1 he2)
    · rw [if_neg hcd] at hfc
      exact cp_app_ne c ("DP__" ++ e) (by rw [dp_app_take]; decide) hfc
  have hkeep : (fun c => decide
      (c ∉ ccols.filter (fun c' => decide (c' ∈ dcols)))) ("DP__" ++ e) = true := by
    simp only [decide_eq_true_eq]
    intro hmem
    rw [mem_md_iff] at hmem
    exact absurd rfl (hcol2 _ hmem.1 hmem.2 e he1 he2)
  have hdp : ((dcols.map (dpRenameF ccols)).filter
      (fun c => decide (c ∉ ccols.filter (fun c' => decide (c' ∈ dcols))))).count
      ("DP__" ++ e) = 1 := by
    have hcf : ((dcols.map (dpRenameF ccols)).filter
        (fun c => decide (c ∉ ccols.filter (fun c' => decide (c' ∈ dcols))))).count
        ("DP__" ++ e) = (dcols.map (dpRenameF ccols)).count ("DP__" ++ e) :=
      List.count_filter hkeep
    rw [hcf, List.count_eq_countP, List.countP_map]
    have step : dcols.countP ((fun x => x == "DP__" ++ e) ∘ dpRenameF ccols) =
        dcols.countP (fun x => x == e) := by
      apply List.countP_congr
      intro c hc
      simp only [Function.comp_apply, beq_iff_eq]
      unfold dpRenameF
      by_cases hcc : c ∈ ccols
      · rw [if_pos hcc]
        constructor
        · intro hEq
          exact absurd hEq (hcol2 c hcc hc e he1 he2)
        · rintro rfl
          exact absurd hcc he2
      · rw [if_neg hcc]
        constructor
        · intro hEq
          exact dp_app_inj hEq
        · rintro rfl
          rfl
    rw [step, ← List.count_eq_countP]
    exact List.count_eq_one_of_mem hnd2 he1
  rw [hcp, hdp]

lemma baseCols_mem (ccols dcols : List String) (c : String)
    (hc : c ∈ baseCols ccols dcols) :
    (c ∈ ccols ∧ c ∈ dcols) ∨
      (∃ e, e ∈ ccols ∧ e ∉ dcols ∧ c = "CP__" ++ e) ∨
      (∃ e, e ∈ dcols ∧ e ∉ ccols ∧ c = "DP__" ++ e) := by
  unfold baseCols at hc
  rcases List.mem_append.mp hc with hc | hc
  · rcases List.mem_map.mp hc with ⟨c0, hc0, hfc⟩
    unfold cpRenameF at hfc
    by_cases hcd : c0 ∈ dcols
    · rw [if_pos hcd] at hfc
      exact Or.inl ⟨hfc ▸ hc0, hfc ▸ hcd⟩
    · rw [if_neg hcd] at hfc
      exact Or.inr (Or.inl ⟨c0, hc0, hcd, hfc.symm⟩)
  · rw [List.mem_filter] at hc
    obtain ⟨hc1, hkeep⟩ := hc
    rcases List.mem_map.mp hc1 with ⟨c0, hc0, hgc⟩
    unfold dpRenameF at hgc
    by_cases hcc : c0 ∈ ccols
    · rw [if_pos hcc] at hgc
      exfalso
      simp only [decide_eq_true_eq] at hkeep
      apply hkeep
      rw [mem_md_iff]
      exact ⟨hgc ▸ hcc, hgc ▸ hc0⟩
    · rw [if_neg hcc] at hgc
      exact Or.inr (Or.inr ⟨c0, hc0, hcc, hgc.symm⟩)

/-- C2 (amended): provided the inputs have duplicate-free column names, no
column named `Full_Location`, `Cell_UUID` not a CP column, and no shared
column name colliding with a `CP__`/`DP__`-prefixed exclusive name, then in
any successful merged output every shared (metadata) column name appears
exactly once and unprefixed, every CP-exclusive name appears exactly once as
`CP__<name>`, every DP-exclusive name appears exactly once as `DP__<name>`,
and every output column is one of these or the optional `Cell_UUID`. -/
theorem C2_column_namespacing (cp dp : DF) (u : Bool) (sup : Nat → String)
    (out : DF) (hnd1 : cp.cols.Nodup) (hnd2 : dp.cols.Nodup)
    (hFL1 : "Full_Location" ∉ cp.cols) (hFL2 : "Full_Location" ∉ dp.cols)
    (hCU1 : "Cell_UUID" ∉ cp.cols)
    (hcol1 : ∀ m ∈ cp.cols, m ∈ dp.cols → ∀ e ∈ cp.cols, e ∉ dp.cols →
      m ≠ "CP__" ++ e)
    (hcol2 : ∀ m ∈ cp.cols, m ∈ dp.cols → ∀ e ∈ dp.cols, e ∉ cp.cols →
      m ≠ "DP__" ++ e)
    (hok : (merge_CP_DP_batch_data cp dp u sup).1 = .ok out) :
    (∀ m ∈ cp.cols, m ∈ dp.cols → out.cols.count m = 1) ∧
    (∀ e ∈ cp.cols, e ∉ dp.cols → out.cols.count ("CP__" ++ e) = 1) ∧
    (∀ e ∈ dp.cols, e ∉ cp.cols → out.cols.count ("DP__" ++ e) = 1) ∧
    (∀ c ∈ out.cols, c = "Cell_UUID" ∨ (c ∈ cp.cols ∧ c ∈ dp.cols) ∨
      (∃ e, e ∈ cp.cols ∧ e ∉ dp.cols ∧ c = "CP__" ++ e) ∨
      (∃ e, e ∈ dp.cols ∧ e ∉ cp.cols ∧ c = "DP__" ++ e)) := by
  obtain ⟨out0, hcore, hins⟩ := merge_ok hok
  obtain ⟨cp1, dp1, h1, h2, hlen, hmd, frames, hframes, hconcat⟩ :=
    mergeCore_ok hcore
  have hc1 : cp1.cols = cp.cols := (astypeLoc_ok h1).1
  have hd1 : dp1.cols = dp.cols := (astypeLoc_ok h2).1
  obtain ⟨f0, fs', hfs, hcols0, -⟩ := concatFrames_ok hconcat
  have hf2 := mapExc_forall2 _ _ _ hframes
  rw [hfs] at hf2
  cases hip : dedupFirst ((cp1.rename (cpRenameF dp1.cols)).getCol "Metadata_DNA") with
  | nil =>
    rw [hip] at hf2
    cases hf2
  | cons v0 vrest =>
    rw [hip] at hf2
    have hmi : mergeImage (cp1.rename (cpRenameF dp1.cols))
        (dp1.rename (dpRenameF cp1.cols))
        (cp1.cols.filter (fun c => decide (c ∈ dp1.cols))) v0 = .ok f0 :=
      (List.forall₂_cons.mp hf2).1
    have hFLcpR : "Full_Location" ∉ (cp1.rename (cpRenameF dp1.cols)).cols := by
      rw [rename_cols]
      intro hmem
      rcases List.mem_map.mp hmem with ⟨c, hcm, hfc⟩
      unfold cpRenameF at hfc
      by_cases hcd : c ∈ dp1.cols
      · rw [if_pos hcd] at hfc
        exact hFL1 (hc1 ▸ (hfc ▸ hcm))
      · rw [if_neg hcd] at hfc
        exact cp_app_ne c "Full_Location" (by decide) hfc
    have hFLdpR : "Full_Location" ∉ (dp1.rename (dpRenameF cp1.cols)).cols := by
      rw [rename_cols]
      intro hmem
      rcases List.mem_map.mp hmem with ⟨c, hcm, hgc⟩
      unfold dpRenameF at hgc
      by_cases hcc : c ∈ cp1.cols
      · rw [if_pos hcc] at hgc
        exact hFL2 (hd1 ▸ (hgc ▸ hcm))
      · rw [if_neg hcc] at hgc
        exact dp_app_ne c "Full_Location" (by decide) hgc
    have hFLmd : "Full_Location" ∉
        cp1.cols.filter (fun c => decide (c ∈ dp1.cols)) := by
      intro hmem
      rw [List.mem_filter] at hmem
      exact hFL1 (hc1 ▸ hmem.1)
    have hbase : f0.cols = baseCols cp.cols dp.cols := by
      rw [mergeImage_ok_cols hmi hFLcpR hFLdpR hFLmd]
      unfold baseCols
      rw [rename_cols, rename_cols, hc1, hd1]
    have hout0 : out0.cols = baseCols cp.cols dp.cols := by rw [hcols0, hbase]
    have houtcols : out.cols = baseCols cp.cols dp.cols ∨
        out.cols = "Cell_UUID" :: baseCols cp.cols dp.cols := by
      rcases hins with ⟨-, rfl⟩ | ⟨-, hiu⟩
      · exact Or.inl hout0
      · refine Or.inr ?_
        rw [(insertUuid_ok hiu).2.1, hout0]
    refine ⟨?_, ?_, ?_, ?_⟩
    · intro m hm1 hm2
      have hbc := baseCols_count_shared cp.cols dp.cols hnd1 hcol1 m hm1 hm2
      rcases houtcols with hoc | hoc
      · rw [hoc]
        exact hbc
      · rw [hoc, List.count_cons]
        have hne : ("Cell_UUID" == m) = false := by
          simp only [beq_eq_false_iff_ne]
          rintro rfl
          exact hCU1 hm1
        rw [hne, hbc]
        simp
    · intro e he1 he2
      have hbc := baseCols_count_cp_excl cp.cols dp.cols hnd1 hcol1 e he1 he2
      rcases houtcols with hoc | hoc
      · rw [hoc]
        exact hbc
      · rw [hoc, List.count_cons]
        have hne : ("Cell_UUID" == "CP__" ++ e) = false := by
          simp only [beq_eq_false_iff_ne]
          exact Ne.symm (cp_app_ne e "Cell_UUID" (by decide))
        rw [hne, hbc]
        simp
    · intro e he1 he2
      have hbc := baseCols_count_dp_excl cp.cols dp.cols hnd2 hcol2 e he1 he2
      rcases houtcols with hoc | hoc
      · rw [hoc]
        exact hbc
      · rw [hoc, List.count_cons]
        have hne : ("Cell_UUID" == "DP__" ++ e) = false := by
          simp only [beq_eq_false_iff_ne]
          exact Ne.symm (dp_app_ne e "Cell_UUID" (by decide))
        rw [hne, hbc]
        simp
    · intro c hcmem
      rcases houtcols with hoc | hoc
      · rw [hoc] at hcmem
        rcases baseCols_mem cp.cols dp.cols c hcmem with h | h | h
        · exact Or.inr (Or.inl h)
        · exact Or.inr (Or.inr (Or.inl h))
        · exact Or.inr (Or.inr (Or.inr h))
      · rw [hoc] at hcmem
        rcases List.mem_cons.mp hcmem with rfl | hcmem
        · exact Or.inl rfl
        · rcases baseCols_mem cp.cols dp.cols c hcmem with h | h | h
          · exact Or.inr (Or.inl h)
          · exact Or.inr (Or.inr (Or.inl h))
          · exact Or.inr (Or.inr (Or.inr h))

/-- Witness for C2 on the collision-free frames `cpG`/`dpG`. -/
theorem C2_column_namespacing_witness :
    (merge_CP_DP_batch_data cpG dpG false sup0).1 = .ok outW2 ∧
    ((∀ m ∈ cpG.cols, m ∈ dpG.cols → outW2.cols.count m = 1) ∧
     (∀ e ∈ cpG.cols, e ∉ dpG.cols → outW2.cols.count ("CP__" ++ e) = 1) ∧
     (∀ e ∈ dpG.cols, e ∉ cpG.cols → outW2.cols.count ("DP__" ++ e) = 1) ∧
     (∀ c ∈ outW2.cols, c = "Cell_UUID" ∨ (c ∈ cpG.cols ∧ c ∈ dpG.cols) ∨
       (∃ e, e ∈ cpG.cols ∧ e ∉ dpG.cols ∧ c = "CP__" ++ e) ∨
       (∃ e, e ∈ dpG.cols ∧ e ∉ cpG.cols ∧ c = "DP__" ++ e))) :=
  ⟨by decide,
    C2_column_namespacing cpG dpG false sup0 outW2 (by decide) (by decide)
      (by decide) (by decide) (by decide) (by decide) (by decide) (by decide)⟩

/-- Counterexample to C2 as stated: `cpX2` and `dpX2` share a metadata
column literally named `DP__B` while `dpX2` exclusively owns `B`; the rename
makes the prefixed `B` collide with the metadata name, `drop(columns=...)`
deletes both copies from the DP side, and the single surviving `DP__B`
output column carries the CP value `7` — the DP-exclusive column `B` does
not appear (prefixed) in the output at all. -/
theorem C2_counterexample :
    excIsOk (merge_CP_DP_batch_data cpX2 dpX2 false sup0).1 = true ∧
    (match (merge_CP_DP_batch_data cpX2 dpX2 false sup0).1 with
     | .ok o => o.cols.count "DP__B"
     | .error _ => 0) = 1 ∧
    (match (merge_CP_DP_batch_data cpX2 dpX2 false sup0).1 with
     | .ok o => o.rows.map (fun r => rowGet r "DP__B")
     | .error _ => []) = [Val.vInt 7] ∧
    "DP__B" ∈ cpX2.cols ∧ "DP__B" ∈ dpX2.cols ∧
    "B" ∈ dpX2.cols ∧ "B" ∉ cpX2.cols := by
  decide

/-! ### Row-count lemmas for the per-image merge. -/

lemma vLoc_pair_injective :
    Function.Injective (fun p : Int × Int => Val.vLoc p.1 p.2) := by
  rintro ⟨a, b⟩ ⟨c, d⟩ h
  simp only [Val.vLoc.injEq] at h
  exact Prod.ext h.1 h.2

lemma DF.ext' {a b : DF} (h1 : a.cols = b.cols) (h2 : a.rows = b.rows) :
    a = b := by
  cases a
  cases b
  simp_all

lemma filterEq_rename_comm (df : DF) (f : String → String) (c : String) (v : Val)
    (h : ∀ n, f n = c ↔ n = c) :
    (df.rename f).filterEq c v = (df.filterEq c v).rename f := by
  apply DF.ext'
  · rfl
  · rw [filterEq_rename df f c v h]
    rfl

lemma mapOpt_map_eq {α β γ : Type} (g : β → Option γ) (h : α → β) :
    ∀ (l : List α), mapOpt g (l.map h) = mapOpt (fun a => g (h a)) l := by
  intro l
  induction l with
  | nil => rfl
  | cons a l ih => simp [mapOpt, ih]

lemma mapOpt_congr {α β : Type} {f g : α → Option β} :
    ∀ (l : List α), (∀ a ∈ l, f a = g a) → mapOpt f l = mapOpt g l := by
  intro l
  induction l with
  | nil => intro _; rfl
  | cons a l ih =>
    intro hp
    simp only [mapOpt, hp a (List.mem_cons_self _ _),
      ih (fun x hx => hp x (List.mem_cons_of_mem _ hx))]

lemma getLocs_ok_length {df : DF} {locs : List (Int × Int)}
    (h : DF.getLocs df = .ok locs) : locs.length = df.rows.length := by
  unfold DF.getLocs at h
  split at h
  · split at h
    · rename_i ls hm
      injection h with h
      rw [← h]
      exact mapOpt_length _ _ _ hm
    · exact absurd h (by simp)
  · exact absurd h (by simp)

lemma getLocs_rename (df : DF) (f : String → String)
    (hX : ∀ n, f n = "Location_Center_X" ↔ n = "Location_Center_X")
    (hY : ∀ n, f n = "Location_Center_Y" ↔ n = "Location_Center_Y") :
    (df.rename f).getLocs = df.getLocs := by
  unfold DF.getLocs
  have hmX : ("Location_Center_X" ∈ (df.rename f).cols) ↔
      "Location_Center_X" ∈ df.cols := by
    rw [rename_cols]
    constructor
    · intro hm
      rcases List.mem_map.mp hm with ⟨c, hc, hfc⟩
      exact ((hX c).mp hfc) ▸ hc
    · intro hm
      exact List.mem_map.mpr ⟨_, hm, (hX _).mpr rfl⟩
  have hmY : ("Location_Center_Y" ∈ (df.rename f).cols) ↔
      "Location_Center_Y" ∈ df.cols := by
    rw [rename_cols]
    constructor
    · intro hm
      rcases List.mem_map.mp hm with ⟨c, hc, hfc⟩
      exact ((hY c).mp hfc) ▸ hc
    · intro hm
      exact List.mem_map.mpr ⟨_, hm, (hY _).mpr rfl⟩
  by_cases hc : "Location_Center_X" ∈ df.cols ∧ "Location_Center_Y" ∈ df.cols
  · rw [if_pos hc, if_pos (by rw [hmX, hmY]; exact hc)]
    have hrows : (df.rename f).rows =
        df.rows.map (fun r => r.map (fun p => (f p.1, p.2))) := rfl
    rw [hrows, mapOpt_map_eq]
    have hcongr := mapOpt_congr (f := fun r =>
        match rowGet (r.map (fun p => (f p.1, p.2))) "Location_Center_X",
              rowGet (r.map (fun p => (f p.1, p.2))) "Location_Center_Y" with
        | Val.vInt a, Val.vInt b => some (a, b)
        | _, _ => none)
      (g := fun r =>
        match rowGet r "Location_Center_X", rowGet r "Location_Center_Y" with
        | Val.vInt a, Val.vInt b => some (a, b)
        | _, _ => none) df.rows
      (fun r _ => by
        simp only [rowGet_renameRow f r "Location_Center_X" hX,
          rowGet_renameRow f r "Location_Center_Y" hY])
    rw [hcongr]
  · rw [if_neg hc, if_neg (by rw [hmX, hmY]; exact hc)]

lemma rowGet_setCol_mem (rows : List Rec) (vs : List Val) (c : String) :
    ∀ b ∈ List.zipWith (fun r v => rowSet r c v) rows vs, rowGet b c ∈ vs := by
  induction rows generalizing vs with
  | nil =>
    intro b hb
    simp at hb
  | cons r rows ih =>
    intro b hb
    cases vs with
    | nil => simp at hb
    | cons v vs =>
      rcases List.mem_cons.mp hb with rfl | hb
      · rw [rowGet_rowSet_self]
        exact List.mem_cons_self _ _
      · exact List.mem_cons_of_mem _ (ih vs b hb)

lemma forall2_sum_map {α β : Type} {R : α → β → Prop} {g : α → Nat} {h : β → Nat} :
    ∀ {l : List α} {l' : List β}, List.Forall₂ R l l' →
      (∀ a b, a ∈ l → R a b → h b = g a) → (l'.map h).sum = (l.map g).sum := by
  intro l l' hf
  induction hf with
  | nil => intro _; rfl
  | @cons a b l l' hR hrest ih =>
    intro hp
    simp only [List.map_cons, List.sum_cons]
    rw [hp a b (List.mem_cons_self _ _) hR,
      ih (fun x y hx hr => hp x y (List.mem_cons_of_mem _ hx) hr)]

lemma mergeImage_ok_rows_length {cpR dpR : DF} {md : List String} {v : Val}
    {mi : DF} (h : mergeImage cpR dpR md v = .ok mi)
    (hFLm : "Full_Location" ∉ md)
    (hnd : ∀ locs, (cpR.filterEq "Metadata_DNA" v).getLocs = .ok locs →
      (locs.map (fun p => Val.vLoc p.1 p.2)).Nodup) :
    mi.rows.length = (dpR.filterEq "Metadata_DNA" v).rows.length := by
  simp only [mergeImage] at h
  split at h
  · exact absurd h (by simp)
  · rename_i cpLocs hg1
    split at h
    · exact absurd h (by simp)
    · rename_i dpLocs hg2
      split at h
      · exact absurd h (by simp)
      · rename_i mapped hmo
        split at h
        · exact absurd h (by simp)
        · rename_i merged hmrg
          injection h with h
          rw [← h]
          have hLcp : cpLocs.length = (cpR.filterEq "Metadata_DNA" v).rows.length :=
            getLocs_ok_length hg1
          have hLdp : dpLocs.length = (dpR.filterEq "Metadata_DNA" v).rows.length :=
            getLocs_ok_length hg2
          have hLmap : mapped.length = dpLocs.length := mapOpt_length _ _ _ hmo
          have hkeyl : ((cpR.filterEq "Metadata_DNA" v).setCol "Full_Location"
              (cpLocs.map (fun p => Val.vLoc p.1 p.2))).getCol "Full_Location" =
              cpLocs.map (fun p => Val.vLoc p.1 p.2) :=
            getCol_setCol_self _ _ _ (by rw [List.length_map]; exact hLcp)
          have hmapped_mem : ∀ x ∈ mapped,
              x ∈ cpLocs.map (fun p => Val.vLoc p.1 p.2) := by
            intro x hx
            obtain ⟨d, -, hdx⟩ := forall2_mem_right (mapOpt_forall2 _ _ _ hmo) x hx
            cases hfl : full_loc_map d cpLocs with
            | none => rw [hfl] at hdx; simp at hdx
            | some p =>
              rw [hfl] at hdx
              simp only [Option.map, Option.some.injEq] at hdx
              rw [← hdx]
              exact List.mem_map_of_mem _ (full_loc_map_mem d p cpLocs hfl)
          have hmem : ∀ b ∈ ((((dpR.filterEq "Metadata_DNA" v).setCol "Full_Location"
              (dpLocs.map (fun p => Val.vLoc p.1 p.2))).setCol "Full_Location"
              mapped).dropCols md).rows,
              rowGet b "Full_Location" ∈
              ((cpR.filterEq "Metadata_DNA" v).setCol "Full_Location"
                (cpLocs.map (fun p => Val.vLoc p.1 p.2))).getCol "Full_Location" := by
            intro b hb
            rw [hkeyl]
            simp only [DF.dropCols] at hb
            rcases List.mem_map.mp hb with ⟨b0, hb0, rfl⟩
            rw [rowGet_filterCols b0 md "Full_Location" hFLm]
            exact hmapped_mem _ (rowGet_setCol_mem _ _ _ b0 hb0)
          have hmerged_len := mergeOn_rows_length hmrg
            (by rw [hkeyl]; exact hnd cpLocs hg1) hmem
          have hdpI2len : (((dpR.filterEq "Metadata_DNA" v).setCol "Full_Location"
              (dpLocs.map (fun p => Val.vLoc p.1 p.2)))).rows.length =
              (dpR.filterEq "Metadata_DNA" v).rows.length :=
            setCol_rows_length _ _ _ (by rw [List.length_map]; exact hLdp)
          have hmappedlen : mapped.length =
              (((dpR.filterEq "Metadata_DNA" v).setCol "Full_Location"
              (dpLocs.map (fun p => Val.vLoc p.1 p.2)))).rows.length := by
            rw [hdpI2len, hLmap, hLdp]
          rw [dropCols_rows_length, hmerged_len, dropCols_rows_length,
            setCol_rows_length _ _ _ hmappedlen, hdpI2len]

/-- C3 (amended): suppose the location coercion succeeds on both inputs, the
CP input has no `Full_Location` column, within each image group the CP and
DP row counts agree, and the coerced CP centroids are pairwise distinct
within each image group; then any table returned by `merge_CP_DP_batch_data`
has exactly as many rows as the DP input. -/
theorem C3_output_rowcount (cp dp cp1 dp1 : DF) (u : Bool) (sup : Nat → String)
    (out : DF) (h1 : astypeLoc cp = .ok cp1) (h2 : astypeLoc dp = .ok dp1)
    (hFL1 : "Full_Location" ∉ cp.cols)
    (hcnt : ∀ v ∈ cp1.getCol "Metadata_DNA" ++ dp1.getCol "Metadata_DNA",
      (cp1.rows.filter (fun r => rowGet r "Metadata_DNA" == v)).length =
      (dp1.rows.filter (fun r => rowGet r "Metadata_DNA" == v)).length)
    (hdist : ∀ v ∈ cp1.getCol "Metadata_DNA",
      locsNodupOk ((cp1.filterEq "Metadata_DNA" v).getLocs))
    (hok : (merge_CP_DP_batch_data cp dp u sup).1 = .ok out) :
    out.rows.length = dp.rows.length := by
  obtain ⟨out0, hcore, hins⟩ := merge_ok hok
  obtain ⟨cp1', dp1', h1', h2', hlen, hmd, frames, hframes, hconcat⟩ :=
    mergeCore_ok hcore
  have e1 : cp1 = cp1' := by
    have := h1.symm.trans h1'
    injection this
  have e2 : dp1 = dp1' := by
    have := h2.symm.trans h2'
    injection this
  subst e1
  subst e2
  have hlen_out : out.rows.length = out0.rows.length := by
    rcases hins with ⟨-, rfl⟩ | ⟨-, hiu⟩
    · rfl
    · exact (insertUuid_ok hiu).2.2
  obtain ⟨f0, fs', hfs, -, hrows0⟩ := concatFrames_ok hconcat
  have hsum : out0.rows.length = (frames.map (fun fr => fr.rows.length)).sum := by
    rw [hrows0, List.length_flatten, List.map_map, ← hfs]
    rfl
  have hMDcp : ∀ n, cpRenameF dp1.cols n = "Metadata_DNA" ↔ n = "Metadata_DNA" :=
    cpRenameF_eq_iff dp1.cols _ hmd.2 (by decide)
  have hMDdp : ∀ n, dpRenameF cp1.cols n = "Metadata_DNA" ↔ n = "Metadata_DNA" :=
    dpRenameF_eq_iff cp1.cols _ hmd.1 (by decide)
  have hXdpc : "Location_Center_X" ∈ dp1.cols := by
    rw [(astypeLoc_ok h2).1]
    exact (astypeLoc_ok h2).2.2.1
  have hYdpc : "Location_Center_Y" ∈ dp1.cols := by
    rw [(astypeLoc_ok h2).1]
    exact (astypeLoc_ok h2).2.2.2
  have hXcp : ∀ n, cpRenameF dp1.cols n = "Location_Center_X" ↔
      n = "Location_Center_X" :=
    cpRenameF_eq_iff dp1.cols _ hXdpc (by decide)
  have hYcp : ∀ n, cpRenameF dp1.cols n = "Location_Center_Y" ↔
      n = "Location_Center_Y" :=
    cpRenameF_eq_iff dp1.cols _ hYdpc (by decide)
  have hFLmd : "Full_Location" ∉
      cp1.cols.filter (fun c => decide (c ∈ dp1.cols)) := by
    intro hmem
    rw [List.mem_filter] at hmem
    exact hFL1 ((astypeLoc_ok h1).1 ▸ hmem.1)
  have hframe_len : ∀ v fr,
      v ∈ dedupFirst ((cp1.rename (cpRenameF dp1.cols)).getCol "Metadata_DNA") →
      mergeImage (cp1.rename (cpRenameF dp1.cols)) (dp1.rename (dpRenameF cp1.cols))
        (cp1.cols.filter (fun c => decide (c ∈ dp1.cols))) v = .ok fr →
      fr.rows.length =
        (dp1.rows.filter (fun r => rowGet r "Metadata_DNA" == v)).length := by
    intro v fr hv hmi
    have hveq : v ∈ cp1.getCol "Metadata_DNA" := by
      rw [mem_dedupFirst, rename_getCol cp1 _ _ hMDcp] at hv
      exact hv
    have hgl : ((cp1.rename (cpRenameF dp1.cols)).filterEq "Metadata_DNA" v).getLocs =
        (cp1.filterEq "Metadata_DNA" v).getLocs := by
      rw [filterEq_rename_comm cp1 _ _ _ hMDcp]
      exact getLocs_rename _ _ hXcp hYcp
    have hndv : ∀ locs,
        ((cp1.rename (cpRenameF dp1.cols)).filterEq "Metadata_DNA" v).getLocs =
          .ok locs → (locs.map (fun p => Val.vLoc p.1 p.2)).Nodup := by
      intro locs hlocs
      rw [hgl] at hlocs
      have hdv := hdist v hveq
      rw [hlocs] at hdv
      have hdv' : locs.Nodup := hdv
      exact hdv'.map vLoc_pair_injective
    have hlen1 := mergeImage_ok_rows_length hmi hFLmd hndv
    rw [hlen1]
    have hren : ((dp1.rename (dpRenameF cp1.cols)).filterEq "Metadata_DNA" v).rows.length =
        (dp1.filterEq "Metadata_DNA" v).rows.length := by
      rw [filterEq_rename_comm dp1 _ _ _ hMDdp]
      simp [DF.rename, DF.filterEq]
    rw [hren]
    rfl
  have hf2 := mapExc_forall2 _ _ _ hframes
  have hsum2 : (frames.map (fun fr => fr.rows.length)).sum =
      ((dedupFirst ((cp1.rename (cpRenameF dp1.cols)).getCol "Metadata_DNA")).map
        (fun v => (dp1.rows.filter
          (fun r => rowGet r "Metadata_DNA" == v)).length)).sum :=
    forall2_sum_map hf2 (fun v fr hv hr => hframe_len v fr hv hr)
  have hVnd := nodup_dedupFirst
    ((cp1.rename (cpRenameF dp1.cols)).getCol "Metadata_DNA")
  have hmemV : ∀ b ∈ dp1.rows, rowGet b "Metadata_DNA" ∈
      dedupFirst ((cp1.rename (cpRenameF dp1.cols)).getCol "Metadata_DNA") := by
    intro b hb
    rw [mem_dedupFirst, rename_getCol cp1 _ _ hMDcp]
    have hv0 : rowGet b "Metadata_DNA" ∈ dp1.getCol "Metadata_DNA" :=
      List.mem_map_of_mem _ hb
    have hcnt0 := hcnt (rowGet b "Metadata_DNA")
      (List.mem_append.mpr (Or.inr hv0))
    have hbpos : 0 < (dp1.rows.filter
        (fun r => rowGet r "Metadata_DNA" == rowGet b "Metadata_DNA")).length := by
      apply List.length_pos.mpr
      apply List.ne_nil_of_mem
      exact List.mem_filter.mpr ⟨hb, by simp⟩
    rw [← hcnt0] at hbpos
    rcases List.exists_mem_of_length_pos hbpos with ⟨r, hr⟩
    rw [List.mem_filter] at hr
    have : rowGet r "Metadata_DNA" = rowGet b "Metadata_DNA" := by
      simpa using hr.2
    exact this ▸ List.mem_map_of_mem _ hr.1
  have hpart : ((dedupFirst ((cp1.rename (cpRenameF dp1.cols)).getCol
      "Metadata_DNA")).map (fun v => (dp1.rows.filter
        (fun r => rowGet r "Metadata_DNA" == v)).length)).sum =
      dp1.rows.length := by
    have conv1 : ∀ v, (dp1.rows.filter
        (fun r => rowGet r "Metadata_DNA" == v)).length =
        dp1.rows.countP (fun r => decide (rowGet r "Metadata_DNA" = v)) := by
      intro v
      rw [← List.countP_eq_length_filter]
      apply List.countP_congr
      intro r _
      simp
    rw [List.map_congr_left (fun v _ => conv1 v)]
    exact sum_countP_partition _ (fun r => rowGet r "Metadata_DNA") dp1.rows
      hVnd hmemV
  rw [hlen_out, hsum, hsum2, hpart, astypeLoc_length h2]

/-- Witness for C3 on `cpG`/`dpG`: two cells of one image on each side, with
distinct CP centroids. -/
theorem C3_output_rowcount_witness :
    astypeLoc cpG = .ok cpG ∧ astypeLoc dpG = .ok dpG ∧
    "Full_Location" ∉ cpG.cols ∧
    (∀ v ∈ cpG.getCol "Metadata_DNA" ++ dpG.getCol "Metadata_DNA",
      (cpG.rows.filter (fun r => rowGet r "Metadata_DNA" == v)).length =
      (dpG.rows.filter (fun r => rowGet r "Metadata_DNA" == v)).length) ∧
    (∀ v ∈ cpG.getCol "Metadata_DNA",
      locsNodupOk ((cpG.filterEq "Metadata_DNA" v).getLocs)) ∧
    (merge_CP_DP_batch_data cpG dpG false sup0).1 = .ok outW2 ∧
    outW2.rows.length = dpG.rows.length :=
  ⟨by decide, by decide, by decide, by decide, by decide, by decide,
    C3_output_rowcount cpG dpG cpG dpG false sup0 outW2 (by decide) (by decide)
      (by decide) (by decide) (by decide) (by decide)⟩

/-- Counterexample to C3 as stated: `cpX3` has two cells of one image with
the same centroid `(0,0)`; per-image counts agree (2 = 2) but the inner join
on the shared centroid produces 4 merged rows for 2 DP rows. -/
theorem C3_counterexample :
    excIsOk (merge_CP_DP_batch_data cpX3 dpX3 false sup0).1 = true ∧
    (match (merge_CP_DP_batch_data cpX3 dpX3 false sup0).1 with
     | .ok o => o.rows.length
     | .error _ => 0) = 4 ∧
    dpX3.rows.length = 2 ∧
    (∀ v ∈ cpX3.getCol "Metadata_DNA" ++ dpX3.getCol "Metadata_DNA",
      (cpX3.rows.filter (fun r => rowGet r "Metadata_DNA" == v)).length =
      (dpX3.rows.filter (fun r => rowGet r "Metadata_DNA" == v)).length) := by
  decide

end IdrStream
